import Mathlib

/-!
# Pushpin `acceptrequest.cpp`: serializer and reply validator

A shallow embedding of `src/proxy/src/acceptrequest.cpp`:

* `acceptDataToVariant` (lines 24-136), the request serializer;
* `convertResult` (lines 138-234), the strict reply validator;
* `AcceptRequest.start` / `AcceptRequest.onSuccess` (lines 267-281), the lifecycle hooks.

The Qt value types the file relies on (`QVariant`, `QVariantHash`, `QByteArray`, ...) and the
record types declared in headers that are not part of the source tree (`AcceptData`,
`HttpResponseData`, `AcceptRequest::ResponseData`) are modelled first.
-/

namespace Pushpin

/-! ## Dynamic value model -/

/-- Byte sequences (`QByteArray`): a list of byte values. -/
abbrev QByteArray := List Nat

/-- Text (`QString`). -/
abbrev QString := String

/-- Modelled from the spec: the `QVariant` tagged union, with the seven tags of the
DynamicValue of section 3 (Null, Bool, Int64, Text, Bytes, List, Map). The type is declared
by the Qt library, not by this repository. -/
inductive QVariant where
  | invalid : QVariant
  | bool : Bool → QVariant
  | longLong : Int → QVariant
  | string : QString → QVariant
  | byteArray : QByteArray → QVariant
  | list : List QVariant → QVariant
  | hash : List (QString × QVariant) → QVariant

/-- Ordered list of values (`QVariantList`). -/
abbrev QVariantList := List QVariant

/-- String-keyed map (`QVariantHash`), kept as an association list read by first match. -/
abbrev QVariantHash := List (QString × QVariant)

/-- Tags reported by `QVariant::type()`. -/
inductive QVariantType where
  | Invalid | Bool | LongLong | String | ByteArray | List | Hash
deriving DecidableEq, Repr

namespace QVariant

/-- The tag of a value: `QVariant::type()`. -/
def type : QVariant → QVariantType
  | invalid => .Invalid
  | bool _ => .Bool
  | longLong _ => .LongLong
  | string _ => .String
  | byteArray _ => .ByteArray
  | list _ => .List
  | hash _ => .Hash

/-- Validity test `QVariant::isValid()`: every tag but the null one. -/
def isValid (v : QVariant) : Bool := v.type != .Invalid

/-- Map extraction `QVariant::toHash()`: the map of a Hash value, the empty map otherwise. -/
def toHash : QVariant → QVariantHash
  | hash h => h
  | _ => []

/-- List extraction `QVariant::toList()`: the list of a List value, the empty list otherwise. -/
def toList : QVariant → QVariantList
  | list l => l
  | _ => []

/-- Bool extraction `QVariant::toBool()`: the flag of a Bool value, the only tag the
validator reads it from. -/
def toBool : QVariant → Bool
  | bool b => b
  | _ => false

/-- Bytes extraction `QVariant::toByteArray()`: the bytes of a ByteArray value, the only tag
the validator reads it from. -/
def toByteArray : QVariant → QByteArray
  | byteArray b => b
  | _ => []

/-- Convertibility test `canConvert(QVariant::Int)`: Qt decides it from the tag alone; Bool,
integer, String and ByteArray values are convertible, the null value, lists and maps are not. -/
def canConvertInt : QVariant → Bool
  | bool _ => true
  | longLong _ => true
  | string _ => true
  | byteArray _ => true
  | _ => false

end QVariant

/-! ### Numeric conversion -/

/-- White space as skipped around a number. -/
def isSpace (c : Nat) : Bool := c == 32 || (9 ≤ c && c ≤ 13)

/-- Value of a run of decimal digits, accumulated left to right; `none` on a non-digit. -/
def digitsValue : List Nat → Nat → Option Nat
  | [], acc => some acc
  | c :: cs, acc => if 48 ≤ c ∧ c ≤ 57 then digitsValue cs (acc * 10 + (c - 48)) else none

/-- Unsigned magnitude: at least one digit, all digits. -/
def magnitude (cs : List Nat) : Option Nat :=
  if cs.isEmpty then none else digitsValue cs 0

/-- Drop white space at both ends. -/
def trimSpace (cs : List Nat) : List Nat :=
  ((cs.dropWhile isSpace).reverse.dropWhile isSpace).reverse

/-- Base-10 parse of a character sequence to a 64-bit integer (`toLongLong`): surrounding
white space, an optional sign, decimal digits; `none` when the text is not a number or the
value does not fit 64 bits. -/
def toLongLong (cs : List Nat) : Option Int :=
  let r : Option Int :=
    match trimSpace cs with
    | 45 :: ds => (magnitude ds).map (fun n => - (n : Int))
    | 43 :: ds => (magnitude ds).map (fun n => (n : Int))
    | ds => (magnitude ds).map (fun n => (n : Int))
  match r with
  | some n => if -(2 : Int) ^ 63 ≤ n ∧ n < (2 : Int) ^ 63 then some n else none
  | none => none

/-- Narrowing of a 64-bit integer to the 32-bit `int`: the value modulo `2^32`, signed. -/
def toInt32 (n : Int) : Int := (n + 2 ^ 31) % 2 ^ 32 - 2 ^ 31

/-- Code points of a text. -/
def QString.codes (s : QString) : List Nat := s.toList.map Char.toNat

namespace QVariant

/-- Integer extraction `QVariant::toInt()`: the value is first brought to a 64-bit integer (a
Bool as 0 or 1, a String or ByteArray by parsing, 0 when the parse fails) and then narrowed
to `int`; 0 for the tags that are not convertible. -/
def toInt : QVariant → Int
  | bool b => if b then 1 else 0
  | longLong n => toInt32 n
  | string s => toInt32 ((toLongLong s.codes).getD 0)
  | byteArray b => toInt32 ((toLongLong b).getD 0)
  | _ => 0

end QVariant

/-! ### Hash operations -/

namespace QVariantHash

/-- Key membership `QHash::contains`. -/
def contains (h : QVariantHash) (k : QString) : Bool :=
  h.any (fun e => e.1 == k)

/-- Read access `h[k]`: the value stored under `k`, the null value when `k` is absent. -/
def value : QVariantHash → QString → QVariant
  | [], _ => .invalid
  | (k', v) :: rest, k => if k' == k then v else value rest k

/-- Assignment `h[k] = v`: replaces the value of an existing key, adds the key otherwise. -/
def insert : QVariantHash → QString → QVariant → QVariantHash
  | [], k, v => [(k, v)]
  | (k', v') :: rest, k, v => if k' == k then (k, v) :: rest else (k', v') :: insert rest k v

/-- The keys of a map. -/
def keys (h : QVariantHash) : List QString := h.map Prod.fst

end QVariantHash

/-! ## Records -/

/-- One header: a (name, value) pair of byte sequences (`QPair<QByteArray, QByteArray>`, the
pair type appended at line 216). -/
abbrev HttpHeader := QByteArray × QByteArray

/-- Ordered header sequence; duplicates allowed. -/
abbrev HttpHeaders := List HttpHeader

/-- Modelled from the spec: `HttpResponseData`, whose declaration is not in the source tree.
Fields as read and written by lines 108-121 and 179-228; every field defaults to its zero
value (section 3). The `code` field is the `int` that line 179 fills from `toInt()`; the
record keeps it as an integer and a statement that needs its 32-bit range says so with
`inInt32`. -/
structure HttpResponseData where
  code : Int := 0
  reason : QByteArray := []
  headers : HttpHeaders := []
  body : QByteArray := []
deriving DecidableEq, Repr

/-- Modelled from the spec: `AcceptRequest::ResponseData`, declared in `acceptrequest.h`
(not in the source tree): `accepted` defaults to false and `response` to its zero value. -/
structure ResponseData where
  accepted : Bool := false
  response : HttpResponseData := {}
deriving DecidableEq, Repr

/-! ## The reply validator -/

/-- Lines 150-159: the `accepted` block. `none` stands for the early
`*ok = false; return ResponseData()`. -/
def convertAccepted (obj : QVariantHash) (out : ResponseData) : Option ResponseData :=
  if obj.contains "accepted" then
    if (obj.value "accepted").type ≠ .Bool then none
    else some { out with accepted := (obj.value "accepted").toBool }
  else some out

/-- Lines 171-180: the `code` block. -/
def convertCode (vresponse : QVariantHash) (out : ResponseData) : Option ResponseData :=
  if vresponse.contains "code" then
    if !(vresponse.value "code").canConvertInt then none
    else some { out with response := { out.response with code := (vresponse.value "code").toInt } }
  else some out

/-- Lines 182-191: the `reason` block. -/
def convertReason (vresponse : QVariantHash) (out : ResponseData) : Option ResponseData :=
  if vresponse.contains "reason" then
    if (vresponse.value "reason").type ≠ .ByteArray then none
    else some { out with
      response := { out.response with reason := (vresponse.value "reason").toByteArray } }
  else some out

/-- Lines 201-217: the loop over the header entries, appending each pair to the headers
collected so far; `none` on the first malformed entry. -/
def convertHeaderList : QVariantList → HttpHeaders → Option HttpHeaders
  | [], acc => some acc
  | i :: rest, acc =>
    let list := i.toList
    if list.length ≠ 2 then none
    else if (list.getD 0 .invalid).type ≠ .ByteArray ∨ (list.getD 1 .invalid).type ≠ .ByteArray then
      none
    else
      convertHeaderList rest
        (acc ++ [((list.getD 0 .invalid).toByteArray, (list.getD 1 .invalid).toByteArray)])

/-- Lines 193-218: the `headers` block. -/
def convertHeaders (vresponse : QVariantHash) (out : ResponseData) : Option ResponseData :=
  if vresponse.contains "headers" then
    if (vresponse.value "headers").type ≠ .List then none
    else
      match convertHeaderList (vresponse.value "headers").toList out.response.headers with
      | none => none
      | some hs => some { out with response := { out.response with headers := hs } }
  else some out

/-- Lines 220-229: the `body` block. -/
def convertBody (vresponse : QVariantHash) (out : ResponseData) : Option ResponseData :=
  if vresponse.contains "body" then
    if (vresponse.value "body").type ≠ .ByteArray then none
    else some { out with
      response := { out.response with body := (vresponse.value "body").toByteArray } }
  else some out

/-- Lines 161-230: the `response` block. -/
def convertResponse (obj : QVariantHash) (out : ResponseData) : Option ResponseData :=
  if obj.contains "response" then
    if (obj.value "response").type ≠ .Hash then none
    else
      let vresponse := (obj.value "response").toHash
      (convertCode vresponse out).bind fun out =>
      (convertReason vresponse out).bind fun out =>
      (convertHeaders vresponse out).bind fun out =>
      convertBody vresponse out
  else some out

/-- Lines 138-234: `convertResult(in, &ok)`. The pair is the returned `ResponseData` and the
flag written through `ok`. -/
def convertResult (v : QVariant) : ResponseData × Bool :=
  let out : ResponseData := {}
  if v.type ≠ .Hash then ({}, false)
  else
    let obj := v.toHash
    match (convertAccepted obj out).bind (convertResponse obj) with
    | none => ({}, false)
    | some out => (out, true)

/-! ## The request serializer -/

/-- Latin-1 bytes of a text (`QString::toLatin1`): a character outside Latin-1 becomes `?`. -/
def QString.toLatin1 (s : QString) : QByteArray :=
  s.toList.map fun c => if c.toNat < 256 then c.toNat else 63

/-- UTF-8 bytes of a text (`QString::toUtf8`). -/
def QString.toUtf8 (s : QString) : QByteArray :=
  (s.toList.map fun c => (String.utf8EncodeChar c).map UInt8.toNat).flatten

/-- Modelled from the spec: a peer address (`QHostAddress`), null or carrying its textual
form (section 3: `peerAddress: optional Text`). -/
structure QHostAddress where
  text : Option QString := none

/-- Null test `QHostAddress::isNull()`. -/
def QHostAddress.isNull (a : QHostAddress) : Bool := a.text.isNone

/-- Textual form `QHostAddress::toString()`. -/
def QHostAddress.toString (a : QHostAddress) : QString := a.text.getD ""

/-- Modelled from the spec: a URL (`QUrl`), carried as its percent-encoded bytes
(section 3: `uri: Bytes (percent-encoded form)`). -/
structure QUrl where
  encoded : QByteArray := []

/-- Percent-encoded form `QUrl::toEncoded()`. -/
def QUrl.toEncoded (u : QUrl) : QByteArray := u.encoded

/-- Modelled from the spec: `HttpRequestData`, whose declaration is not in the source tree
(section 3, `requestData`); fields as read by lines 72-86. -/
structure HttpRequestData where
  method : QString := ""
  uri : QUrl := {}
  headers : HttpHeaders := []
  body : QByteArray := []

/-- Modelled from the spec: `InspectData`, whose declaration is not in the source tree
(section 3, `inspect`); fields as read by lines 95-99. -/
structure InspectData where
  doProxy : Bool := false
  sharingKey : QByteArray := []
  userData : QVariant := .invalid

/-- Modelled from the spec: `AcceptData::Request`, declared in `acceptdata.h` (not in the
source tree): the RequestEntry of section 3; fields as read by lines 35-61. -/
structure AcceptData.Request where
  rid : QString × QString := ("", "")
  https : Bool := false
  peerAddress : QHostAddress := {}
  autoCrossOrigin : Bool := false
  jsonpCallback : QString := ""
  jsonpExtendedResponse : Bool := false
  inSeq : Int := 0
  outSeq : Int := 0
  outCredits : Int := 0
  userData : QVariant := .invalid

/-- Modelled from the spec: `AcceptData`, declared in `acceptdata.h` (not in the source
tree): the RequestContext of section 3; fields as read by lines 30-132. -/
structure AcceptData where
  requests : List AcceptData.Request := []
  requestData : HttpRequestData := {}
  haveInspectData : Bool := false
  inspectData : InspectData := {}
  haveResponse : Bool := false
  response : HttpResponseData := {}
  route : QString := ""
  channelPrefix : QString := ""
  useSession : Bool := false

/-- Lines 32-63: the body of the loop over the requests, building one `vrequest`. -/
def requestToVariant (r : AcceptData.Request) : QVariant :=
  let vrequest : QVariantHash := []
  let vrid : QVariantHash := []
  let vrid := vrid.insert "sender" (.string r.rid.1)
  let vrid := vrid.insert "id" (.string r.rid.2)
  let vrequest := vrequest.insert "rid" (.hash vrid)
  let vrequest := if r.https then vrequest.insert "https" (.bool true) else vrequest
  let vrequest :=
    if !r.peerAddress.isNull then
      vrequest.insert "peer-address" (.byteArray r.peerAddress.toString.toUtf8)
    else vrequest
  let vrequest :=
    if r.autoCrossOrigin then vrequest.insert "auto-cross-origin" (.bool true) else vrequest
  let vrequest :=
    if !r.jsonpCallback.isEmpty then
      let vrequest := vrequest.insert "jsonp-callback" (.string r.jsonpCallback)
      if r.jsonpExtendedResponse then vrequest.insert "jsonp-extended-response" (.bool true)
      else vrequest
    else vrequest
  let vrequest := vrequest.insert "in-seq" (.longLong r.inSeq)
  let vrequest := vrequest.insert "out-seq" (.longLong r.outSeq)
  let vrequest := vrequest.insert "out-credits" (.longLong r.outCredits)
  let vrequest :=
    if r.userData.isValid then vrequest.insert "user-data" r.userData else vrequest
  .hash vrequest

/-- Lines 75-82 and 111-118: the loop turning a header sequence into a list of 2-element
lists, each appended in turn. -/
def headersToVariant (headers : HttpHeaders) : QVariantList :=
  headers.foldl (fun vheaders h => vheaders ++ [.list [.byteArray h.1, .byteArray h.2]]) []

/-- Lines 24-136: `acceptDataToVariant(adata)`. -/
def acceptDataToVariant (adata : AcceptData) : QVariant :=
  let obj : QVariantHash := []
  let vrequests : QVariantList :=
    adata.requests.foldl (fun vrequests r => vrequests ++ [requestToVariant r]) []
  let obj := obj.insert "requests" (.list vrequests)
  let vrequestData : QVariantHash := []
  let vrequestData := vrequestData.insert "method" (.byteArray adata.requestData.method.toLatin1)
  let vrequestData := vrequestData.insert "uri" (.byteArray adata.requestData.uri.toEncoded)
  let vrequestData :=
    vrequestData.insert "headers" (.list (headersToVariant adata.requestData.headers))
  let vrequestData := vrequestData.insert "body" (.byteArray adata.requestData.body)
  let obj := obj.insert "request-data" (.hash vrequestData)
  let obj :=
    if adata.haveInspectData then
      let vinspect : QVariantHash := []
      let vinspect := vinspect.insert "no-proxy" (.bool (!adata.inspectData.doProxy))
      let vinspect := vinspect.insert "sharing-key" (.byteArray adata.inspectData.sharingKey)
      let vinspect :=
        if adata.inspectData.userData.isValid then
          vinspect.insert "user-data" adata.inspectData.userData
        else vinspect
      obj.insert "inspect" (.hash vinspect)
    else obj
  let obj :=
    if adata.haveResponse then
      let vresponse : QVariantHash := []
      let vresponse := vresponse.insert "code" (.longLong adata.response.code)
      let vresponse := vresponse.insert "reason" (.byteArray adata.response.reason)
      let vresponse :=
        vresponse.insert "headers" (.list (headersToVariant adata.response.headers))
      let vresponse := vresponse.insert "body" (.byteArray adata.response.body)
      obj.insert "response" (.hash vresponse)
    else obj
  let obj := if !adata.route.isEmpty then obj.insert "route" (.string adata.route) else obj
  let obj :=
    if !adata.channelPrefix.isEmpty then
      obj.insert "channel-prefix" (.string adata.channelPrefix)
    else obj
  let obj := if adata.useSession then obj.insert "use-session" (.bool true) else obj
  .hash obj

/-! ## The request lifecycle -/

/-- Modelled from the spec: the error kinds of the RPC base class (section 7). Only
`ErrorFormat` is named by the source (line 278). -/
inductive ErrorCondition where
  | ErrorFormat
  | ErrorTransport
deriving DecidableEq, Repr

/-- Modelled from the spec: the state of an `AcceptRequest` object: the private `result`
(line 242) and the part of the `ZrpcRequest` base class the source touches, whose
declaration is not in the source tree: the reply value returned by `ZrpcRequest::result()`,
the error kind written by `setError`, and the calls handed over by `ZrpcRequest::start`. -/
structure AcceptRequest where
  result : ResponseData := {}
  zrpcResult : QVariant := .invalid
  error : Option ErrorCondition := none
  calls : List (QString × QVariantHash) := []

namespace AcceptRequest

/-- Modelled from the spec: `ZrpcRequest::start(method, args)` of the base class, recording
the call handed to the RPC facility (section 6, `send`). -/
def zrpcStart (self : AcceptRequest) (method : QString) (args : QVariantHash) : AcceptRequest :=
  { self with calls := self.calls ++ [(method, args)] }

/-- Modelled from the spec: `setError(kind)` of the base class. -/
def setError (self : AcceptRequest) (e : ErrorCondition) : AcceptRequest :=
  { self with error := some e }

/-- Lines 267-270: `AcceptRequest::start(adata)`. -/
def start (self : AcceptRequest) (adata : AcceptData) : AcceptRequest :=
  self.zrpcStart "accept" (acceptDataToVariant adata).toHash

/-- Lines 272-281: `AcceptRequest::onSuccess()`. -/
def onSuccess (self : AcceptRequest) : AcceptRequest :=
  let r := convertResult self.zrpcResult
  let self := { self with result := r.1 }
  if !r.2 then self.setError .ErrorFormat
  else self

end AcceptRequest

/-! ## Vocabulary of the statements -/

/-- A well-formed header entry: a list of exactly two elements, both Bytes. -/
def isHeaderPair : QVariant → Bool
  | .list [.byteArray _, .byteArray _] => true
  | _ => false

/-- The 2-element list carrying a header pair. -/
def headerToVariant (h : HttpHeader) : QVariant :=
  .list [.byteArray h.1, .byteArray h.2]

/-- The pair read off a header entry (line 216). -/
def headerOfVariant (e : QVariant) : HttpHeader :=
  ((e.toList.getD 0 .invalid).toByteArray, (e.toList.getD 1 .invalid).toByteArray)

/-- The field stored under a key, if the key is present: `contains` followed by `h[k]`. -/
def QVariantHash.find? (h : QVariantHash) (k : QString) : Option QVariant :=
  if h.contains k then some (h.value k) else none

/-- The signed 32-bit range of `int`. -/
def inInt32 (n : Int) : Prop := -(2 : Int) ^ 31 ≤ n ∧ n < (2 : Int) ^ 31

/-- The signed 64-bit range. -/
def inInt64 (n : Int) : Prop := -(2 : Int) ^ 63 ≤ n ∧ n < (2 : Int) ^ 63

instance (n : Int) : Decidable (inInt32 n) := by unfold inInt32; infer_instance

instance (n : Int) : Decidable (inInt64 n) := by unfold inInt64; infer_instance

/-! ## Lemmas on the value model -/

theorem QVariantHash.value_insert_ne (h : QVariantHash) (k k' : QString) (v : QVariant)
    (hk : k ≠ k') : (h.insert k v).value k' = h.value k' := by
  induction h with
  | nil => simp [QVariantHash.insert, QVariantHash.value, hk]
  | cons e rest ih =>
    obtain ⟨a, b⟩ := e
    by_cases ha : a = k
    · subst ha
      simp [QVariantHash.insert, QVariantHash.value, hk]
    · simp [QVariantHash.insert, QVariantHash.value, ha, ih]

theorem QVariantHash.contains_insert_ne (h : QVariantHash) (k k' : QString) (v : QVariant)
    (hk : k ≠ k') : (h.insert k v).contains k' = h.contains k' := by
  induction h with
  | nil => simp [QVariantHash.insert, QVariantHash.contains, hk]
  | cons e rest ih =>
    obtain ⟨a, b⟩ := e
    by_cases ha : a = k
    · subst ha
      simp [QVariantHash.insert, QVariantHash.contains, hk]
    · have ih2 := ih
      simp only [QVariantHash.contains] at ih2
      simp [QVariantHash.insert, QVariantHash.contains, ha, ih2]

theorem QVariantHash.value_insert_self (h : QVariantHash) (k : QString) (v : QVariant) :
    (h.insert k v).value k = v := by
  induction h with
  | nil => simp [QVariantHash.insert, QVariantHash.value]
  | cons e rest ih =>
    obtain ⟨a, b⟩ := e
    by_cases ha : a = k
    · simp [QVariantHash.insert, QVariantHash.value, ha]
    · simp [QVariantHash.insert, QVariantHash.value, ha, ih]

theorem QVariantHash.contains_insert_self (h : QVariantHash) (k : QString) (v : QVariant) :
    (h.insert k v).contains k = true := by
  induction h with
  | nil => simp [QVariantHash.insert, QVariantHash.contains]
  | cons e rest ih =>
    obtain ⟨a, b⟩ := e
    by_cases ha : a = k
    · simp [QVariantHash.insert, QVariantHash.contains, ha]
    · have ih2 := ih
      simp only [QVariantHash.contains] at ih2
      simp [QVariantHash.insert, QVariantHash.contains, ha, ih2]

theorem QVariant.type_eq_Hash (v : QVariant) :
    v.type = .Hash ↔ ∃ h, v = .hash h := by
  cases v <;> simp [QVariant.type]

theorem QVariant.type_eq_List (v : QVariant) :
    v.type = .List ↔ ∃ l, v = .list l := by
  cases v <;> simp [QVariant.type]

theorem QVariant.type_eq_ByteArray (v : QVariant) :
    v.type = .ByteArray ↔ ∃ b, v = .byteArray b := by
  cases v <;> simp [QVariant.type]

theorem QVariant.type_eq_Bool (v : QVariant) :
    v.type = .Bool ↔ ∃ b, v = .bool b := by
  cases v <;> simp [QVariant.type]

/-- The validator never fails with anything but the default-constructed result. -/
theorem convertResult_fail_default (v : QVariant) (h : (convertResult v).2 = false) :
    convertResult v = ({}, false) := by
  unfold convertResult at h ⊢
  by_cases ht : v.type ≠ .Hash
  · simp [ht]
  · simp only [ht, if_false] at h ⊢
    cases hc : (convertAccepted v.toHash {}).bind (convertResponse v.toHash) with
    | none => rfl
    | some out => simp [hc] at h

/-- A failing `code` block fails the whole validation. -/
theorem convertResult_of_convertCode_none (obj vresponse : QVariantHash)
    (hr : obj.contains "response" = true) (hv : obj.value "response" = .hash vresponse)
    (hc : ∀ out, convertCode vresponse out = none) :
    convertResult (.hash obj) = ({}, false) := by
  have h2 : ∀ out, convertResponse obj out = none := by
    intro out
    simp [convertResponse, hr, hv, QVariant.type, QVariant.toHash, hc]
  unfold convertResult
  simp only [QVariant.type, QVariant.toHash]
  cases ha : convertAccepted obj {} with
  | none => simp
  | some out => simp [h2]

theorem headerOfVariant_headerToVariant (h : HttpHeader) :
    headerOfVariant (headerToVariant h) = h := by
  simp [headerOfVariant, headerToVariant, QVariant.toList, QVariant.toByteArray]

theorem isHeaderPair_headerToVariant (h : HttpHeader) :
    isHeaderPair (headerToVariant h) = true := by
  simp [isHeaderPair, headerToVariant]

theorem isHeaderPair_iff (e : QVariant) :
    isHeaderPair e = true ↔ ∃ a b, e = .list [.byteArray a, .byteArray b] := by
  constructor
  · intro h
    unfold isHeaderPair at h
    split at h
    · exact ⟨_, _, rfl⟩
    · simp at h
  · rintro ⟨a, b, rfl⟩
    rfl

/-- One step of the header loop on a well-formed entry. -/
theorem convertHeaderList_cons_pair (e : QVariant) (rest : QVariantList) (acc : HttpHeaders)
    (h : isHeaderPair e = true) :
    convertHeaderList (e :: rest) acc = convertHeaderList rest (acc ++ [headerOfVariant e]) := by
  obtain ⟨a, b, rfl⟩ := (isHeaderPair_iff e).1 h
  simp [convertHeaderList, headerOfVariant, QVariant.toList, QVariant.type]

/-- One step of the header loop on a malformed entry. -/
theorem convertHeaderList_cons_bad (e : QVariant) (rest : QVariantList) (acc : HttpHeaders)
    (h : isHeaderPair e = false) :
    convertHeaderList (e :: rest) acc = none := by
  unfold convertHeaderList
  by_cases hl : e.toList.length ≠ 2
  · simp [hl]
  · have hl2 : e.toList.length = 2 := not_not.1 hl
    cases e with
    | list l =>
      match l, hl2 with
      | [x, y], _ =>
        cases x <;> cases y <;>
          simp_all [QVariant.toList, QVariant.type, isHeaderPair]
    | _ => simp [QVariant.toList] at hl2

theorem convertHeaderList_pairs (l : QVariantList) (acc : HttpHeaders)
    (h : ∀ e ∈ l, isHeaderPair e = true) :
    convertHeaderList l acc = some (acc ++ l.map headerOfVariant) := by
  induction l generalizing acc with
  | nil => simp [convertHeaderList]
  | cons e rest ih =>
    rw [convertHeaderList_cons_pair e rest acc (h e (List.mem_cons_self _ _))]
    rw [ih _ (fun x hx => h x (List.mem_cons_of_mem _ hx))]
    simp

theorem convertHeaderList_bad (l : QVariantList) (acc : HttpHeaders)
    (h : ∃ e ∈ l, isHeaderPair e = false) :
    convertHeaderList l acc = none := by
  induction l generalizing acc with
  | nil => simp at h
  | cons e rest ih =>
    cases hp : isHeaderPair e with
    | false => exact convertHeaderList_cons_bad e rest acc hp
    | true =>
      rw [convertHeaderList_cons_pair e rest acc hp]
      apply ih
      obtain ⟨x, hx, hxb⟩ := h
      rcases List.mem_cons.1 hx with rfl | hx2
      · simp [hp] at hxb
      · exact ⟨x, hx2, hxb⟩

/-! ## The blocks of the validator on valid fields -/

theorem convertAccepted_valid (obj : QVariantHash) (out : ResponseData)
    (h : obj.contains "accepted" = true → (obj.value "accepted").type = .Bool) :
    convertAccepted obj out = some { out with
      accepted := if obj.contains "accepted" then (obj.value "accepted").toBool
        else out.accepted } := by
  unfold convertAccepted
  cases hc : obj.contains "accepted" with
  | false => simp
  | true => simp [h hc]

theorem convertCode_valid (vr : QVariantHash) (out : ResponseData)
    (h : vr.contains "code" = true → (vr.value "code").canConvertInt = true) :
    convertCode vr out = some { out with
      response := { out.response with
        code := if vr.contains "code" then (vr.value "code").toInt else out.response.code } } := by
  unfold convertCode
  cases hc : vr.contains "code" with
  | false => simp
  | true => simp [h hc]

theorem convertReason_valid (vr : QVariantHash) (out : ResponseData)
    (h : vr.contains "reason" = true → (vr.value "reason").type = .ByteArray) :
    convertReason vr out = some { out with
      response := { out.response with
        reason := if vr.contains "reason" then (vr.value "reason").toByteArray
          else out.response.reason } } := by
  unfold convertReason
  cases hc : vr.contains "reason" with
  | false => simp
  | true => simp [h hc]

theorem convertHeaders_valid (vr : QVariantHash) (out : ResponseData)
    (h : vr.contains "headers" = true →
      ∃ l, vr.value "headers" = .list l ∧ ∀ e ∈ l, isHeaderPair e = true) :
    convertHeaders vr out = some { out with
      response := { out.response with
        headers := if vr.contains "headers" then
            out.response.headers ++ (vr.value "headers").toList.map headerOfVariant
          else out.response.headers } } := by
  unfold convertHeaders
  cases hc : vr.contains "headers" with
  | false => simp
  | true =>
    obtain ⟨l, hl, hp⟩ := h hc
    simp [hl, QVariant.type, QVariant.toList, convertHeaderList_pairs l _ hp]

theorem convertBody_valid (vr : QVariantHash) (out : ResponseData)
    (h : vr.contains "body" = true → (vr.value "body").type = .ByteArray) :
    convertBody vr out = some { out with
      response := { out.response with
        body := if vr.contains "body" then (vr.value "body").toByteArray
          else out.response.body } } := by
  unfold convertBody
  cases hc : vr.contains "body" with
  | false => simp
  | true => simp [h hc]

/-- The `response` block on a response map all of whose known fields are valid. -/
theorem convertResponse_valid (obj vr : QVariantHash) (out : ResponseData)
    (hr : obj.contains "response" = true) (hv : obj.value "response" = .hash vr)
    (hcode : vr.contains "code" = true → (vr.value "code").canConvertInt = true)
    (hreason : vr.contains "reason" = true → (vr.value "reason").type = .ByteArray)
    (hheaders : vr.contains "headers" = true →
      ∃ l, vr.value "headers" = .list l ∧ ∀ e ∈ l, isHeaderPair e = true)
    (hbody : vr.contains "body" = true → (vr.value "body").type = .ByteArray) :
    convertResponse obj out = some
      { accepted := out.accepted
        response :=
          { code := if vr.contains "code" then (vr.value "code").toInt else out.response.code
            reason := if vr.contains "reason" then (vr.value "reason").toByteArray
              else out.response.reason
            headers := if vr.contains "headers" then
                out.response.headers ++ (vr.value "headers").toList.map headerOfVariant
              else out.response.headers
            body := if vr.contains "body" then (vr.value "body").toByteArray
              else out.response.body } } := by
  unfold convertResponse
  simp only [hr, hv, QVariant.type, QVariant.toHash, if_true, ne_eq, not_true_eq_false,
    if_false]
  rw [convertCode_valid vr out hcode, Option.some_bind, convertReason_valid vr _ hreason,
    Option.some_bind, convertHeaders_valid vr _ hheaders, Option.some_bind,
    convertBody_valid vr _ hbody]

/-- The validator on a reply with a valid `accepted` field and a valid `response` map. -/
theorem convertResult_valid_response (obj vr : QVariantHash)
    (hacc : obj.contains "accepted" = true → (obj.value "accepted").type = .Bool)
    (hr : obj.contains "response" = true) (hv : obj.value "response" = .hash vr)
    (hcode : vr.contains "code" = true → (vr.value "code").canConvertInt = true)
    (hreason : vr.contains "reason" = true → (vr.value "reason").type = .ByteArray)
    (hheaders : vr.contains "headers" = true →
      ∃ l, vr.value "headers" = .list l ∧ ∀ e ∈ l, isHeaderPair e = true)
    (hbody : vr.contains "body" = true → (vr.value "body").type = .ByteArray) :
    convertResult (.hash obj) =
      ({ accepted := if obj.contains "accepted" then (obj.value "accepted").toBool else false
         response :=
          { code := if vr.contains "code" then (vr.value "code").toInt else 0
            reason := if vr.contains "reason" then (vr.value "reason").toByteArray else []
            headers := if vr.contains "headers" then
                (vr.value "headers").toList.map headerOfVariant
              else []
            body := if vr.contains "body" then (vr.value "body").toByteArray else [] } },
        true) := by
  unfold convertResult
  simp only [QVariant.type, QVariant.toHash, ne_eq, not_true_eq_false, if_false]
  rw [convertAccepted_valid obj _ hacc, Option.some_bind,
    convertResponse_valid obj vr _ hr hv hcode hreason hheaders hbody]
  simp

/-- The validator on a reply with a valid `accepted` field and no `response` key. -/
theorem convertResult_valid_no_response (obj : QVariantHash)
    (hacc : obj.contains "accepted" = true → (obj.value "accepted").type = .Bool)
    (hr : obj.contains "response" = false) :
    convertResult (.hash obj) =
      ({ accepted := if obj.contains "accepted" then (obj.value "accepted").toBool else false
         response := {} }, true) := by
  unfold convertResult
  simp only [QVariant.type, QVariant.toHash, ne_eq, not_true_eq_false, if_false]
  rw [convertAccepted_valid obj _ hacc, Option.some_bind]
  simp [convertResponse, hr]

/-! ## What a successful validation implies -/

theorem convertAccepted_some (obj : QVariantHash) (out o : ResponseData)
    (h : convertAccepted obj out = some o) :
    obj.contains "accepted" = true → (obj.value "accepted").type = .Bool := by
  intro hc
  unfold convertAccepted at h
  by_contra hn
  simp [hc, hn] at h

theorem convertCode_some (vr : QVariantHash) (out o : ResponseData)
    (h : convertCode vr out = some o) :
    vr.contains "code" = true → (vr.value "code").canConvertInt = true := by
  intro hc
  unfold convertCode at h
  by_contra hn
  simp [hc, hn] at h

theorem convertReason_some (vr : QVariantHash) (out o : ResponseData)
    (h : convertReason vr out = some o) :
    vr.contains "reason" = true → (vr.value "reason").type = .ByteArray := by
  intro hc
  unfold convertReason at h
  by_contra hn
  simp [hc, hn] at h

theorem convertHeaders_some (vr : QVariantHash) (out o : ResponseData)
    (h : convertHeaders vr out = some o) :
    vr.contains "headers" = true →
      (vr.value "headers").type = .List ∧
      ∀ e ∈ (vr.value "headers").toList, isHeaderPair e = true := by
  intro hc
  unfold convertHeaders at h
  by_cases ht : (vr.value "headers").type = .List
  · refine ⟨ht, ?_⟩
    by_contra hn
    push_neg at hn
    obtain ⟨e, he, hb⟩ := hn
    have hb2 : isHeaderPair e = false := by simpa using hb
    simp [hc, ht, convertHeaderList_bad _ out.response.headers ⟨e, he, hb2⟩] at h
  · simp [hc, ht] at h

theorem convertBody_some (vr : QVariantHash) (out o : ResponseData)
    (h : convertBody vr out = some o) :
    vr.contains "body" = true → (vr.value "body").type = .ByteArray := by
  intro hc
  unfold convertBody at h
  by_contra hn
  simp [hc, hn] at h

theorem convertResponse_some (obj : QVariantHash) (out o : ResponseData)
    (h : convertResponse obj out = some o) :
    obj.contains "response" = true →
      (obj.value "response").type = .Hash ∧
      (((obj.value "response").toHash.contains "code" = true →
          ((obj.value "response").toHash.value "code").canConvertInt = true) ∧
       ((obj.value "response").toHash.contains "reason" = true →
          ((obj.value "response").toHash.value "reason").type = .ByteArray) ∧
       ((obj.value "response").toHash.contains "headers" = true →
          ((obj.value "response").toHash.value "headers").type = .List ∧
          ∀ e ∈ ((obj.value "response").toHash.value "headers").toList,
            isHeaderPair e = true) ∧
       ((obj.value "response").toHash.contains "body" = true →
          ((obj.value "response").toHash.value "body").type = .ByteArray)) := by
  intro hc
  unfold convertResponse at h
  by_cases ht : (obj.value "response").type = .Hash
  · refine ⟨ht, ?_⟩
    simp only [hc, ht, if_true, ne_eq, not_true_eq_false, if_false] at h
    obtain ⟨o1, h1, h⟩ := Option.bind_eq_some.1 h
    obtain ⟨o2, h2, h⟩ := Option.bind_eq_some.1 h
    obtain ⟨o3, h3, h⟩ := Option.bind_eq_some.1 h
    exact ⟨convertCode_some _ _ _ h1, convertReason_some _ _ _ h2,
      convertHeaders_some _ _ _ h3, convertBody_some _ _ _ h⟩
  · simp [hc, ht] at h

/-- A reply that validates is a map whose known fields all carry the right tag. -/
theorem convertResult_ok_valid (v : QVariant) (h : (convertResult v).2 = true) :
    v.type = .Hash ∧
    (v.toHash.contains "accepted" = true → (v.toHash.value "accepted").type = .Bool) ∧
    (v.toHash.contains "response" = true →
      (v.toHash.value "response").type = .Hash ∧
      (((v.toHash.value "response").toHash.contains "code" = true →
          ((v.toHash.value "response").toHash.value "code").canConvertInt = true) ∧
       ((v.toHash.value "response").toHash.contains "reason" = true →
          ((v.toHash.value "response").toHash.value "reason").type = .ByteArray) ∧
       ((v.toHash.value "response").toHash.contains "headers" = true →
          ((v.toHash.value "response").toHash.value "headers").type = .List ∧
          ∀ e ∈ ((v.toHash.value "response").toHash.value "headers").toList,
            isHeaderPair e = true) ∧
       ((v.toHash.value "response").toHash.contains "body" = true →
          ((v.toHash.value "response").toHash.value "body").type = .ByteArray))) := by
  unfold convertResult at h
  by_cases ht : v.type = .Hash
  · simp only [ht, ne_eq, not_true_eq_false, if_false] at h
    cases hb : (convertAccepted v.toHash {}).bind (convertResponse v.toHash) with
    | none => simp [hb] at h
    | some o =>
      obtain ⟨o1, h1, h2⟩ := Option.bind_eq_some.1 hb
      exact ⟨ht, convertAccepted_some _ _ _ h1, convertResponse_some _ _ _ h2⟩
  · simp [ht] at h

/-! ## The claims on the validator -/

/-- C1, counterexample: the reply whose `response.code` is the string "abc", which does not
parse as a number, is not rejected: the validator reports success, and the result carries
code 0. -/
theorem convertResult_nonnumeric_code_accepted :
    toLongLong (QString.codes "abc") = none ∧
    (convertResult (.hash [("response", .hash [("code", .string "abc")])])).2 = true ∧
    (convertResult (.hash [("response", .hash [("code", .string "abc")])])).1.response.code
      = 0 := by
  decide

/-- C1, amended: in a reply whose `response` is a map holding a `code`, a code whose tag is
not convertible to an integer (the null value, a list or a map) fails the validation
whatever the other fields hold; a code that is a string which does not parse as a number
does not: with the other fields valid the validation succeeds and the result code is 0. -/
theorem convertResult_code_check (obj vr : QVariantHash)
    (hr : obj.contains "response" = true) (hv : obj.value "response" = .hash vr)
    (hc : vr.contains "code" = true) :
    (((vr.value "code").type = .Invalid ∨ (vr.value "code").type = .List ∨
        (vr.value "code").type = .Hash) →
      convertResult (.hash obj) = ({}, false)) ∧
    (∀ s : QString, vr.value "code" = .string s → toLongLong s.codes = none →
      (obj.contains "accepted" = true → (obj.value "accepted").type = .Bool) →
      (vr.contains "reason" = true → (vr.value "reason").type = .ByteArray) →
      (vr.contains "headers" = true →
        ∃ l, vr.value "headers" = .list l ∧ ∀ e ∈ l, isHeaderPair e = true) →
      (vr.contains "body" = true → (vr.value "body").type = .ByteArray) →
      (convertResult (.hash obj)).2 = true ∧
      (convertResult (.hash obj)).1.response.code = 0) := by
  constructor
  · intro ht
    apply convertResult_of_convertCode_none obj vr hr hv
    intro out
    have hn : (vr.value "code").canConvertInt = false := by
      cases hcv : vr.value "code" <;> simp_all [QVariant.type, QVariant.canConvertInt]
    simp [convertCode, hc, hn]
  · intro s hs hp hacc hreason hheaders hbody
    have hcode : vr.contains "code" = true → (vr.value "code").canConvertInt = true := by
      intro _
      simp [hs, QVariant.canConvertInt]
    rw [convertResult_valid_response obj vr hacc hr hv hcode hreason hheaders hbody]
    simp [hc, hs, QVariant.toInt, hp, toInt32]

/-- C1, witness: a list-valued code is rejected, the string code "abc" is accepted as 0. -/
theorem convertResult_code_check_witness :
    convertResult (.hash [("accepted", .bool true), ("response", .hash [("code", .list [])])])
      = ({}, false) ∧
    ((convertResult (.hash [("accepted", .bool true),
        ("response", .hash [("code", .string "abc"), ("body", .byteArray [104, 105])])])).2
        = true ∧
     (convertResult (.hash [("accepted", .bool true),
        ("response", .hash [("code", .string "abc"), ("body", .byteArray [104, 105])])])).1.response.code
        = 0) :=
  ⟨(convertResult_code_check [("accepted", .bool true), ("response", .hash [("code", .list [])])]
      [("code", .list [])] (by decide) rfl (by decide)).1 (Or.inr (Or.inl rfl)),
   (convertResult_code_check
      [("accepted", .bool true),
        ("response", .hash [("code", .string "abc"), ("body", .byteArray [104, 105])])]
      [("code", .string "abc"), ("body", .byteArray [104, 105])] (by decide) rfl (by decide)).2
      "abc" rfl (by decide) (fun _ => rfl) (fun h => absurd h (by decide))
      (fun h => absurd h (by decide)) (fun _ => rfl)⟩

/-- C2: the validator fails closed on a wrong tag: it reports failure whenever the input is
not a map, or `accepted` is present and not a Bool, or `response` is present and not a map,
or inside the `response` map `reason` is present and not Bytes, `headers` is present and not
a list, or `body` is present and not Bytes, whatever the other keys hold. -/
theorem convertResult_fails_closed (v : QVariant)
    (h : v.type ≠ .Hash ∨
      (v.toHash.contains "accepted" = true ∧ (v.toHash.value "accepted").type ≠ .Bool) ∨
      (v.toHash.contains "response" = true ∧ (v.toHash.value "response").type ≠ .Hash) ∨
      (v.toHash.contains "response" = true ∧
        (((v.toHash.value "response").toHash.contains "reason" = true ∧
            ((v.toHash.value "response").toHash.value "reason").type ≠ .ByteArray) ∨
         ((v.toHash.value "response").toHash.contains "headers" = true ∧
            ((v.toHash.value "response").toHash.value "headers").type ≠ .List) ∨
         ((v.toHash.value "response").toHash.contains "body" = true ∧
            ((v.toHash.value "response").toHash.value "body").type ≠ .ByteArray)))) :
    (convertResult v).2 = false := by
  cases hok : (convertResult v).2 with
  | false => rfl
  | true =>
    exfalso
    obtain ⟨ht, hacc, hresp⟩ := convertResult_ok_valid v hok
    rcases h with h | ⟨hc, hn⟩ | ⟨hc, hn⟩ | ⟨hc, h⟩
    · exact h ht
    · exact hn (hacc hc)
    · exact hn (hresp hc).1
    · obtain ⟨_, _, hreason, hheaders, hbody⟩ := hresp hc
      rcases h with ⟨hc2, hn⟩ | ⟨hc2, hn⟩ | ⟨hc2, hn⟩
      · exact hn (hreason hc2)
      · exact hn (hheaders hc2).1
      · exact hn (hbody hc2)

/-- C2, witness: a `body` that is an integer fails a reply that is otherwise valid. -/
theorem convertResult_fails_closed_witness :
    (convertResult (.hash [("accepted", .bool true),
      ("response", .hash [("code", .longLong 200), ("body", .longLong 5)])])).2 = false :=
  convertResult_fails_closed _ (Or.inr (Or.inr (Or.inr
    ⟨by decide, Or.inr (Or.inr ⟨by decide, by decide⟩)⟩)))

/-- C3: a reply whose `response.headers` is a list holding at least one entry that is not a
list of exactly two Bytes elements fails the validation, wherever that entry sits and whatever
the other entries and fields are. -/
theorem convertResult_bad_header_entry (obj vr : QVariantHash) (l : QVariantList)
    (hr : obj.contains "response" = true) (hv : obj.value "response" = .hash vr)
    (hh : vr.contains "headers" = true) (hl : vr.value "headers" = .list l)
    (hbad : ∃ e ∈ l, isHeaderPair e = false) :
    convertResult (.hash obj) = ({}, false) := by
  apply convertResult_fail_default
  cases hok : (convertResult (.hash obj)).2 with
  | false => rfl
  | true =>
    exfalso
    obtain ⟨_, _, hresp⟩ := convertResult_ok_valid _ hok
    simp only [QVariant.toHash] at hresp
    obtain ⟨_, _, _, hheaders, _⟩ := hresp hr
    simp only [hv, QVariant.toHash] at hheaders
    obtain ⟨_, hall⟩ := hheaders hh
    simp only [hl, QVariant.toList] at hall
    obtain ⟨e, he, hb⟩ := hbad
    simp [hall e he] at hb

/-- C3, witness: the reply with the single one-element header entry `["a"]` is rejected, and
so is one whose malformed entry follows a well-formed one. -/
theorem convertResult_bad_header_entry_witness :
    convertResult (.hash [("response", .hash [("headers", .list [.list [.byteArray [97]]])])])
      = ({}, false) ∧
    convertResult (.hash [("response", .hash [("headers",
        .list [.list [.byteArray [97], .byteArray [98]], .string "x"])])])
      = ({}, false) :=
  ⟨convertResult_bad_header_entry _ _ [.list [.byteArray [97]]] (by decide) rfl (by decide) rfl
      ⟨_, List.mem_cons_self _ _, rfl⟩,
   convertResult_bad_header_entry _ _ [.list [.byteArray [97], .byteArray [98]], .string "x"]
      (by decide) rfl (by decide) rfl
      ⟨.string "x", List.mem_cons_of_mem _ (List.mem_cons_self _ _), rfl⟩⟩

/-! ### Lemmas for the well-formed reply -/

theorem QVariantHash.find?_eq_none (h : QVariantHash) (k : QString) :
    h.find? k = none ↔ h.contains k = false := by
  unfold QVariantHash.find?
  cases h.contains k <;> simp

theorem QVariantHash.find?_eq_some (h : QVariantHash) (k : QString) (v : QVariant) :
    h.find? k = some v ↔ h.contains k = true ∧ h.value k = v := by
  unfold QVariantHash.find?
  cases h.contains k <;> simp

theorem map_headerOfVariant_headerToVariant (hs : HttpHeaders) :
    (hs.map headerToVariant).map headerOfVariant = hs := by
  induction hs with
  | nil => rfl
  | cons h t ih =>
    simp only [List.map_cons, headerOfVariant_headerToVariant, ih]

theorem toInt32_of_inInt32 (n : Int) (h : inInt32 n) : toInt32 n = n := by
  unfold inInt32 at h
  unfold toInt32
  norm_num at h ⊢
  omega

theorem toInt32_eq_iff (n : Int) : toInt32 n = n ↔ inInt32 n := by
  unfold inInt32 toInt32
  norm_num
  omega

/-- A field that is absent or holds a value of the shape `f x` passes a check `p` that every
`f x` passes. -/
theorem field_check_of_find? {α : Type} (h : QVariantHash) (k : QString) (o : Option α)
    (f : α → QVariant) (p : QVariant → Prop) (hf : h.find? k = o.map f) (hp : ∀ x, p (f x)) :
    h.contains k = true → p (h.value k) := by
  intro hc
  cases o with
  | none =>
    rw [Option.map_none', QVariantHash.find?_eq_none] at hf
    simp [hc] at hf
  | some x =>
    rw [Option.map_some', QVariantHash.find?_eq_some] at hf
    rw [hf.2]
    exact hp x

/-- The value a field contributes: read by `g` when present, the default `d` otherwise. -/
theorem field_value_of_find? {α β : Type} (h : QVariantHash) (k : QString) (o : Option α)
    (f : α → QVariant) (g : QVariant → β) (d : β) (hf : h.find? k = o.map f) :
    (if h.contains k then g (h.value k) else d) = (o.map fun x => g (f x)).getD d := by
  cases o with
  | none =>
    rw [Option.map_none', QVariantHash.find?_eq_none] at hf
    simp [hf]
  | some x =>
    rw [Option.map_some', QVariantHash.find?_eq_some] at hf
    simp [hf.1, hf.2]

/-- C4: on a well-formed reply map (`accepted` absent or a Bool; `response` absent or a map
whose `code` is absent or an integer of the signed 32-bit range, whose `reason` and `body`
are absent or Bytes and whose `headers` is absent or a list of 2-element lists of Bytes) the
validation succeeds and the result is determined by the present keys: each field is the
given value, and false, 0, empty bytes or no header when its key is absent. -/
theorem convertResult_well_formed (obj : QVariantHash) (a : Option Bool)
    (r : Option QVariantHash) (c : Option Int) (rs b : Option QByteArray)
    (hs : Option HttpHeaders)
    (ha : obj.find? "accepted" = a.map .bool)
    (hr : obj.find? "response" = r.map .hash)
    (hrange : ∀ n ∈ c, inInt32 n)
    (hc : ∀ vr ∈ r, vr.find? "code" = c.map .longLong)
    (hrs : ∀ vr ∈ r, vr.find? "reason" = rs.map .byteArray)
    (hhs : ∀ vr ∈ r, vr.find? "headers" = hs.map fun l => .list (l.map headerToVariant))
    (hb : ∀ vr ∈ r, vr.find? "body" = b.map .byteArray) :
    convertResult (.hash obj) =
      ({ accepted := a.getD false
         response :=
          if r.isSome then
            { code := c.getD 0, reason := rs.getD [], headers := hs.getD [], body := b.getD [] }
          else { code := 0, reason := [], headers := [], body := [] } }, true) := by
  have hacc : obj.contains "accepted" = true → (obj.value "accepted").type = .Bool :=
    field_check_of_find? obj _ a _ (fun v => v.type = .Bool) ha (fun _ => rfl)
  have hav : (if obj.contains "accepted" then (obj.value "accepted").toBool else false)
      = a.getD false := by
    rw [field_value_of_find? obj _ a .bool QVariant.toBool false ha]
    cases a <;> rfl
  cases r with
  | none =>
    rw [Option.map_none', QVariantHash.find?_eq_none] at hr
    rw [convertResult_valid_no_response obj hacc hr, hav]
    rfl
  | some vr =>
    rw [Option.map_some', QVariantHash.find?_eq_some] at hr
    have hc1 := hc vr rfl
    have hrs1 := hrs vr rfl
    have hhs1 := hhs vr rfl
    have hb1 := hb vr rfl
    rw [convertResult_valid_response obj vr hacc hr.1 hr.2
      (field_check_of_find? vr _ c _ (fun v => v.canConvertInt = true) hc1 (fun _ => rfl))
      (field_check_of_find? vr _ rs _ (fun v => v.type = .ByteArray) hrs1 (fun _ => rfl))
      (field_check_of_find? vr _ hs _
        (fun v => ∃ l, v = .list l ∧ ∀ e ∈ l, isHeaderPair e = true) hhs1
        (fun l => ⟨_, rfl, by
          intro e he
          obtain ⟨h, _, rfl⟩ := List.mem_map.1 he
          exact isHeaderPair_headerToVariant h⟩))
      (field_check_of_find? vr _ b _ (fun v => v.type = .ByteArray) hb1 (fun _ => rfl)),
      hav,
      field_value_of_find? vr _ c .longLong QVariant.toInt 0 hc1,
      field_value_of_find? vr _ rs .byteArray QVariant.toByteArray [] hrs1,
      field_value_of_find? vr _ hs (fun l => .list (l.map headerToVariant))
        (fun v => v.toList.map headerOfVariant) [] hhs1,
      field_value_of_find? vr _ b .byteArray QVariant.toByteArray [] hb1]
    have hcv : (c.map fun x => (QVariant.longLong x).toInt).getD 0 = c.getD 0 := by
      cases c with
      | none => rfl
      | some n => exact toInt32_of_inInt32 n (hrange n rfl)
    have hrv : (rs.map fun x => (QVariant.byteArray x).toByteArray).getD [] = rs.getD [] := by
      cases rs <;> rfl
    have hbv : (b.map fun x => (QVariant.byteArray x).toByteArray).getD [] = b.getD [] := by
      cases b <;> rfl
    have hhv : (hs.map fun l =>
        (QVariant.list (l.map headerToVariant)).toList.map headerOfVariant).getD [] =
        hs.getD [] := by
      cases hs with
      | none => rfl
      | some l => exact map_headerOfVariant_headerToVariant l
    rw [hcv, hrv, hbv, hhv]
    rfl

/-- C4, witness: a full well-formed reply, with two headers of the same name. -/
theorem convertResult_well_formed_witness :
    convertResult (.hash [("accepted", .bool true), ("response", .hash [
        ("code", .longLong 404), ("reason", .byteArray [78, 70]),
        ("headers", .list [.list [.byteArray [97], .byteArray [49]],
          .list [.byteArray [97], .byteArray [50]]]),
        ("body", .byteArray [33])])]) =
      ({ accepted := true
         response := { code := 404, reason := [78, 70],
                       headers := [([97], [49]), ([97], [50])], body := [33] } }, true) :=
  convertResult_well_formed _ (some true)
    (some [("code", .longLong 404), ("reason", .byteArray [78, 70]),
        ("headers", .list [.list [.byteArray [97], .byteArray [49]],
          .list [.byteArray [97], .byteArray [50]]]),
        ("body", .byteArray [33])])
    (some 404) (some [78, 70]) (some [33]) (some [([97], [49]), ([97], [50])])
    rfl rfl (by intro n hn; cases hn; decide)
    (by intro vr h; cases h; rfl) (by intro vr h; cases h; rfl)
    (by intro vr h; cases h; rfl) (by intro vr h; cases h; rfl)

/-- C5: no partial result: whenever the validation fails, the returned `ResponseData` is
the default-constructed one (accepted false, code 0, empty reason, no headers, empty body),
also when fields validated before the failing one were valid; the result stored by
`onSuccess` after such a reply is therefore the default one, and the error kind is the
format error. -/
theorem convertResult_no_partial_result (v : QVariant) (h : (convertResult v).2 = false) :
    (convertResult v).1 =
      { accepted := false, response := { code := 0, reason := [], headers := [], body := [] } } ∧
    ∀ self : AcceptRequest, self.zrpcResult = v →
      self.onSuccess.result =
        { accepted := false
          response := { code := 0, reason := [], headers := [], body := [] } } ∧
      self.onSuccess.error = some .ErrorFormat := by
  have hd := convertResult_fail_default v h
  refine ⟨by rw [hd], ?_⟩
  intro self hself
  subst hself
  unfold AcceptRequest.onSuccess
  simp [hd, AcceptRequest.setError]

/-- C5, witness: the reply `{accepted: true, response: {body: 5}}` fails, and both the
returned result and the one stored by `onSuccess` have `accepted` false. -/
theorem convertResult_no_partial_result_witness :
    (convertResult (.hash [("accepted", .bool true),
        ("response", .hash [("body", .longLong 5)])])).1 =
      { accepted := false, response := { code := 0, reason := [], headers := [], body := [] } } ∧
    ∀ self : AcceptRequest,
      self.zrpcResult = .hash [("accepted", .bool true),
        ("response", .hash [("body", .longLong 5)])] →
      self.onSuccess.result =
        { accepted := false
          response := { code := 0, reason := [], headers := [], body := [] } } ∧
      self.onSuccess.error = some .ErrorFormat :=
  convertResult_no_partial_result
    (.hash [("accepted", .bool true), ("response", .hash [("body", .longLong 5)])])
    (by decide)

/-! ### Lemmas for forward compatibility -/

theorem convertAccepted_congr (obj obj2 : QVariantHash) (out : ResponseData)
    (hc : obj2.contains "accepted" = obj.contains "accepted")
    (hv : obj2.value "accepted" = obj.value "accepted") :
    convertAccepted obj2 out = convertAccepted obj out := by
  unfold convertAccepted
  rw [hc, hv]

theorem convertResponse_congr (obj obj2 : QVariantHash) (out : ResponseData)
    (hc : obj2.contains "response" = obj.contains "response")
    (hv : obj2.value "response" = obj.value "response") :
    convertResponse obj2 out = convertResponse obj out := by
  unfold convertResponse
  rw [hc, hv]

/-- The `response` block reads the response map through its four known keys only. -/
theorem convertResponse_congr_inner (obj obj2 vr vr2 : QVariantHash) (out : ResponseData)
    (hr : obj.contains "response" = true) (hv : obj.value "response" = .hash vr)
    (hr2 : obj2.contains "response" = true) (hv2 : obj2.value "response" = .hash vr2)
    (hcode : vr2.contains "code" = vr.contains "code" ∧ vr2.value "code" = vr.value "code")
    (hreason : vr2.contains "reason" = vr.contains "reason" ∧
      vr2.value "reason" = vr.value "reason")
    (hheaders : vr2.contains "headers" = vr.contains "headers" ∧
      vr2.value "headers" = vr.value "headers")
    (hbody : vr2.contains "body" = vr.contains "body" ∧ vr2.value "body" = vr.value "body") :
    convertResponse obj2 out = convertResponse obj out := by
  unfold convertResponse
  simp only [hr, hv, hr2, hv2, QVariant.toHash]
  unfold convertCode convertReason convertHeaders convertBody
  rw [hcode.1, hcode.2, hreason.1, hreason.2, hheaders.1, hheaders.2, hbody.1, hbody.2]
  simp only [QVariant.type]

theorem convertResult_congr (obj obj2 : QVariantHash)
    (h : ∀ out, convertAccepted obj2 out = convertAccepted obj out)
    (h2 : ∀ out, convertResponse obj2 out = convertResponse obj out) :
    convertResult (.hash obj2) = convertResult (.hash obj) := by
  unfold convertResult
  have hf : convertResponse obj2 = convertResponse obj := funext h2
  simp only [QVariant.toHash, QVariant.type, h, hf]

/-- C6: forward compatibility: setting any key other than `accepted` and `response` in a
reply map, to any value, leaves the outcome of the validation (flag and result) unchanged;
and so does setting, in the `response` map of a reply, any key other than `code`, `reason`,
`headers` and `body`. -/
theorem convertResult_ignores_unknown_key (obj : QVariantHash) (k : QString) (v : QVariant) :
    (k ≠ "accepted" → k ≠ "response" →
      convertResult (.hash (obj.insert k v)) = convertResult (.hash obj)) ∧
    (∀ vr : QVariantHash, obj.contains "response" = true → obj.value "response" = .hash vr →
      k ≠ "code" → k ≠ "reason" → k ≠ "headers" → k ≠ "body" →
      convertResult (.hash (obj.insert "response" (.hash (vr.insert k v))))
        = convertResult (.hash obj)) := by
  constructor
  · intro h1 h2
    apply convertResult_congr
    · intro out
      exact convertAccepted_congr _ _ _ (QVariantHash.contains_insert_ne _ _ _ _ h1)
        (QVariantHash.value_insert_ne _ _ _ _ h1)
    · intro out
      exact convertResponse_congr _ _ _ (QVariantHash.contains_insert_ne _ _ _ _ h2)
        (QVariantHash.value_insert_ne _ _ _ _ h2)
  · intro vr hr hv h1 h2 h3 h4
    apply convertResult_congr
    · intro out
      exact convertAccepted_congr _ _ _
        (QVariantHash.contains_insert_ne _ _ _ _ (by decide))
        (QVariantHash.value_insert_ne _ _ _ _ (by decide))
    · intro out
      exact convertResponse_congr_inner obj _ vr (vr.insert k v) out hr hv
        (QVariantHash.contains_insert_self _ _ _) (QVariantHash.value_insert_self _ _ _)
        ⟨QVariantHash.contains_insert_ne _ _ _ _ h1, QVariantHash.value_insert_ne _ _ _ _ h1⟩
        ⟨QVariantHash.contains_insert_ne _ _ _ _ h2, QVariantHash.value_insert_ne _ _ _ _ h2⟩
        ⟨QVariantHash.contains_insert_ne _ _ _ _ h3, QVariantHash.value_insert_ne _ _ _ _ h3⟩
        ⟨QVariantHash.contains_insert_ne _ _ _ _ h4, QVariantHash.value_insert_ne _ _ _ _ h4⟩

/-- C6, witness: an unknown top-level key `x-new` and an unknown nested key `trailer` next to
valid known keys. -/
theorem convertResult_ignores_unknown_key_witness :
    convertResult (.hash (QVariantHash.insert
        [("accepted", .bool true), ("response", .hash [("code", .longLong 200)])]
        "x-new" (.list [.invalid]))) =
      convertResult (.hash
        [("accepted", .bool true), ("response", .hash [("code", .longLong 200)])]) ∧
    convertResult (.hash (QVariantHash.insert
        [("accepted", .bool true), ("response", .hash [("code", .longLong 200)])]
        "response" (.hash (QVariantHash.insert [("code", .longLong 200)]
          "trailer" (.longLong 7))))) =
      convertResult (.hash
        [("accepted", .bool true), ("response", .hash [("code", .longLong 200)])]) :=
  ⟨(convertResult_ignores_unknown_key
      [("accepted", .bool true), ("response", .hash [("code", .longLong 200)])]
      "x-new" (.list [.invalid])).1 (by decide) (by decide),
   (convertResult_ignores_unknown_key
      [("accepted", .bool true), ("response", .hash [("code", .longLong 200)])]
      "trailer" (.longLong 7)).2 [("code", .longLong 200)] (by decide) rfl
      (by decide) (by decide) (by decide) (by decide)⟩

/-- C7: validating the empty map succeeds and yields accepted false and every response field
at its zero value: code 0, empty reason, no headers, empty body. -/
theorem convertResult_empty_map :
    convertResult (.hash []) =
      ({ accepted := false
         response := { code := 0, reason := [], headers := [], body := [] } }, true) := by
  decide

/-- C8: when `response.headers` is a list of N entries, each the 2-element list of Bytes
`[name_i, value_i]`, and the other fields are valid, the validation succeeds and the result
headers are exactly the N pairs `(name_i, value_i)`, in input order, duplicate names kept. -/
theorem convertResult_headers_in_order (obj vr : QVariantHash) (hs : HttpHeaders)
    (hr : obj.contains "response" = true) (hv : obj.value "response" = .hash vr)
    (hh : vr.contains "headers" = true)
    (hl : vr.value "headers" = .list (hs.map headerToVariant))
    (hacc : obj.contains "accepted" = true → (obj.value "accepted").type = .Bool)
    (hcode : vr.contains "code" = true → (vr.value "code").canConvertInt = true)
    (hreason : vr.contains "reason" = true → (vr.value "reason").type = .ByteArray)
    (hbody : vr.contains "body" = true → (vr.value "body").type = .ByteArray) :
    (convertResult (.hash obj)).2 = true ∧
    (convertResult (.hash obj)).1.response.headers = hs ∧
    (convertResult (.hash obj)).1.response.headers.length = hs.length := by
  have hheaders : vr.contains "headers" = true →
      ∃ l, vr.value "headers" = .list l ∧ ∀ e ∈ l, isHeaderPair e = true := by
    intro _
    refine ⟨_, hl, ?_⟩
    intro e he
    obtain ⟨h, _, rfl⟩ := List.mem_map.1 he
    exact isHeaderPair_headerToVariant h
  rw [convertResult_valid_response obj vr hacc hr hv hcode hreason hheaders hbody]
  simp only [hh, hl, QVariant.toList, if_true, map_headerOfVariant_headerToVariant,
    and_self]

/-- C8, witness: three headers, two of them with the same name, come out in input order. -/
theorem convertResult_headers_in_order_witness :
    (convertResult (.hash [("response", .hash [("headers", .list [
        .list [.byteArray [98], .byteArray [49]],
        .list [.byteArray [97], .byteArray [50]],
        .list [.byteArray [98], .byteArray [51]]])])])).2 = true ∧
    (convertResult (.hash [("response", .hash [("headers", .list [
        .list [.byteArray [98], .byteArray [49]],
        .list [.byteArray [97], .byteArray [50]],
        .list [.byteArray [98], .byteArray [51]]])])])).1.response.headers
      = [([98], [49]), ([97], [50]), ([98], [51])] ∧
    (convertResult (.hash [("response", .hash [("headers", .list [
        .list [.byteArray [98], .byteArray [49]],
        .list [.byteArray [97], .byteArray [50]],
        .list [.byteArray [98], .byteArray [51]]])])])).1.response.headers.length = 3 :=
  convertResult_headers_in_order
    [("response", .hash [("headers", .list [
        .list [.byteArray [98], .byteArray [49]],
        .list [.byteArray [97], .byteArray [50]],
        .list [.byteArray [98], .byteArray [51]]])])]
    [("headers", .list [
        .list [.byteArray [98], .byteArray [49]],
        .list [.byteArray [97], .byteArray [50]],
        .list [.byteArray [98], .byteArray [51]]])]
    [([98], [49]), ([97], [50]), ([98], [51])]
    (by decide) rfl (by decide) rfl
    (fun h => absurd h (by decide)) (fun h => absurd h (by decide))
    (fun h => absurd h (by decide)) (fun h => absurd h (by decide))

/-- C9, counterexample: the code 2147483648 (2^31, inside the 64-bit range) is accepted, but
the result code is -2147483648, not the given integer. -/
theorem convertResult_code_narrowed :
    inInt64 2147483648 ∧
    (convertResult (.hash [("response", .hash [("code", .longLong 2147483648)])])).2 = true ∧
    (convertResult (.hash [("response", .hash [("code", .longLong 2147483648)])])).1.response.code
      = -2147483648 ∧
    (convertResult (.hash [("response", .hash [("code", .longLong 2147483648)])])).1.response.code
      ≠ 2147483648 := by
  decide

/-- C9, amended: when `response.code` is an integer n of the 64-bit range and the other
fields are valid, the validation succeeds and the result code is n narrowed to the signed
32-bit `int` (n modulo 2^32); it equals n exactly when, and only when, n lies in the signed
32-bit range. -/
theorem convertResult_code_integer (obj vr : QVariantHash) (n : Int)
    (hr : obj.contains "response" = true) (hv : obj.value "response" = .hash vr)
    (hc : vr.contains "code" = true) (hn : vr.value "code" = .longLong n)
    (_h64 : inInt64 n)
    (hacc : obj.contains "accepted" = true → (obj.value "accepted").type = .Bool)
    (hreason : vr.contains "reason" = true → (vr.value "reason").type = .ByteArray)
    (hheaders : vr.contains "headers" = true →
      ∃ l, vr.value "headers" = .list l ∧ ∀ e ∈ l, isHeaderPair e = true)
    (hbody : vr.contains "body" = true → (vr.value "body").type = .ByteArray) :
    (convertResult (.hash obj)).2 = true ∧
    (convertResult (.hash obj)).1.response.code = toInt32 n ∧
    ((convertResult (.hash obj)).1.response.code = n ↔ inInt32 n) := by
  have hcode : vr.contains "code" = true → (vr.value "code").canConvertInt = true := by
    intro _
    simp [hn, QVariant.canConvertInt]
  rw [convertResult_valid_response obj vr hacc hr hv hcode hreason hheaders hbody]
  simp only [hc, hn, QVariant.toInt, if_true, true_and]
  exact toInt32_eq_iff n

/-- C9, witness: the code 404 is returned as given. -/
theorem convertResult_code_integer_witness :
    (convertResult (.hash [("response", .hash [("code", .longLong 404)])])).2 = true ∧
    (convertResult (.hash [("response", .hash [("code", .longLong 404)])])).1.response.code
      = toInt32 404 ∧
    ((convertResult (.hash [("response", .hash [("code", .longLong 404)])])).1.response.code
      = 404 ↔ inInt32 404) :=
  convertResult_code_integer [("response", .hash [("code", .longLong 404)])]
    [("code", .longLong 404)] 404 (by decide) rfl (by decide) rfl (by decide)
    (fun h => absurd h (by decide)) (fun h => absurd h (by decide))
    (fun h => absurd h (by decide)) (fun h => absurd h (by decide))

/-! ## The claims on the serializer -/

theorem QVariantHash.contains_iff_mem_keys (h : QVariantHash) (k : QString) :
    h.contains k = true ↔ k ∈ h.keys := by
  simp [QVariantHash.contains, QVariantHash.keys]

/-- The top-level keys of the serialized map, in the order the serializer writes them. -/
theorem acceptDataToVariant_keys (adata : AcceptData) :
    (acceptDataToVariant adata).toHash.keys =
      ["requests", "request-data"]
        ++ (if adata.haveInspectData then ["inspect"] else [])
        ++ (if adata.haveResponse then ["response"] else [])
        ++ (if adata.route.isEmpty then [] else ["route"])
        ++ (if adata.channelPrefix.isEmpty then [] else ["channel-prefix"])
        ++ (if adata.useSession then ["use-session"] else []) := by
  unfold acceptDataToVariant
  cases adata.haveInspectData <;> cases adata.haveResponse <;> cases adata.route.isEmpty <;>
    cases adata.channelPrefix.isEmpty <;> cases adata.useSession <;>
    simp [QVariantHash.insert, QVariantHash.keys, QVariant.toHash]

theorem acceptDataToVariant_use_session (adata : AcceptData) (h : adata.useSession = true) :
    (acceptDataToVariant adata).toHash.value "use-session" = .bool true := by
  unfold acceptDataToVariant
  simp only [h, if_true, QVariant.toHash]
  exact QVariantHash.value_insert_self _ _ _

/-- C10: the serializer is total and returns a map whose top-level keys are exactly:
`requests` and `request-data` always; `inspect` iff inspect data is present; `response` iff a
response is present; `route` iff the route is non-empty; `channel-prefix` iff the channel
prefix is non-empty; `use-session` iff useSession is true, its value then being true. No
key occurs twice and no other key is emitted. -/
theorem acceptDataToVariant_top_level_keys (adata : AcceptData) :
    (acceptDataToVariant adata).type = .Hash ∧
    (∀ k : QString, (acceptDataToVariant adata).toHash.contains k = true ↔
      (k = "requests" ∨ k = "request-data" ∨
       (k = "inspect" ∧ adata.haveInspectData = true) ∨
       (k = "response" ∧ adata.haveResponse = true) ∨
       (k = "route" ∧ adata.route.isEmpty = false) ∨
       (k = "channel-prefix" ∧ adata.channelPrefix.isEmpty = false) ∨
       (k = "use-session" ∧ adata.useSession = true))) ∧
    (acceptDataToVariant adata).toHash.keys.Nodup ∧
    (adata.useSession = true →
      (acceptDataToVariant adata).toHash.value "use-session" = .bool true) := by
  refine ⟨rfl, ?_, ?_, acceptDataToVariant_use_session adata⟩
  · intro k
    rw [QVariantHash.contains_iff_mem_keys, acceptDataToVariant_keys]
    cases adata.haveInspectData <;> cases adata.haveResponse <;> cases adata.route.isEmpty <;>
      cases adata.channelPrefix.isEmpty <;> cases adata.useSession <;>
      simp
  · rw [acceptDataToVariant_keys]
    cases adata.haveInspectData <;> cases adata.haveResponse <;> cases adata.route.isEmpty <;>
      cases adata.channelPrefix.isEmpty <;> cases adata.useSession <;>
      decide

/-- C10, witness: a context with no optional field set yields exactly `requests` and
`request-data`; one with all of them set yields all seven keys, `use-session` being true. -/
theorem acceptDataToVariant_top_level_keys_witness :
    (acceptDataToVariant {}).toHash.keys = ["requests", "request-data"] ∧
    (acceptDataToVariant
        { haveInspectData := true, haveResponse := true, route := "r", channelPrefix := "c",
          useSession := true }).toHash.keys =
      ["requests", "request-data", "inspect", "response", "route", "channel-prefix",
        "use-session"] ∧
    (acceptDataToVariant
        { haveInspectData := true, haveResponse := true, route := "r", channelPrefix := "c",
          useSession := true }).toHash.value "use-session" = .bool true :=
  ⟨rfl, rfl,
   (acceptDataToVariant_top_level_keys
      { haveInspectData := true, haveResponse := true, route := "r", channelPrefix := "c",
        useSession := true }).2.2.2 rfl⟩

/-! ### Normal forms of the serializer output -/

theorem foldl_append_singleton {α β : Type} (f : α → β) (l : List α) (init : List β) :
    l.foldl (fun acc x => acc ++ [f x]) init = init ++ l.map f := by
  induction l generalizing init with
  | nil => simp
  | cons x xs ih => simp [ih]

/-- The header loop yields one 2-element list per header, in order. -/
theorem headersToVariant_eq_map (headers : HttpHeaders) :
    headersToVariant headers = headers.map headerToVariant := by
  unfold headersToVariant
  have h := foldl_append_singleton headerToVariant headers []
  simpa [headerToVariant] using h

/-- The map built for one request, in the order its keys are written. -/
theorem requestToVariant_eq (r : AcceptData.Request) :
    requestToVariant r = .hash
      ([("rid", .hash [("sender", .string r.rid.1), ("id", .string r.rid.2)])]
        ++ (if r.https then [("https", .bool true)] else [])
        ++ (if r.peerAddress.isNull then []
            else [("peer-address", .byteArray r.peerAddress.toString.toUtf8)])
        ++ (if r.autoCrossOrigin then [("auto-cross-origin", .bool true)] else [])
        ++ (if r.jsonpCallback.isEmpty then []
            else [("jsonp-callback", .string r.jsonpCallback)]
              ++ (if r.jsonpExtendedResponse then [("jsonp-extended-response", .bool true)]
                  else []))
        ++ [("in-seq", .longLong r.inSeq), ("out-seq", .longLong r.outSeq),
            ("out-credits", .longLong r.outCredits)]
        ++ (if r.userData.isValid then [("user-data", r.userData)] else [])) := by
  unfold requestToVariant
  cases r.https <;> cases r.peerAddress.isNull <;> cases r.autoCrossOrigin <;>
    cases r.jsonpCallback.isEmpty <;> cases r.jsonpExtendedResponse <;>
    cases r.userData.isValid <;>
    simp [QVariantHash.insert]

/-- The serialized map, in the order its keys are written. -/
theorem acceptDataToVariant_eq (adata : AcceptData) :
    acceptDataToVariant adata = .hash
      ([("requests", .list (adata.requests.map requestToVariant)),
        ("request-data", .hash
          [("method", .byteArray adata.requestData.method.toLatin1),
           ("uri", .byteArray adata.requestData.uri.toEncoded),
           ("headers", .list (adata.requestData.headers.map headerToVariant)),
           ("body", .byteArray adata.requestData.body)])]
        ++ (if adata.haveInspectData then
              [("inspect", .hash
                ([("no-proxy", .bool (!adata.inspectData.doProxy)),
                  ("sharing-key", .byteArray adata.inspectData.sharingKey)]
                  ++ (if adata.inspectData.userData.isValid then
                        [("user-data", adata.inspectData.userData)]
                      else [])))]
            else [])
        ++ (if adata.haveResponse then
              [("response", .hash
                [("code", .longLong adata.response.code),
                 ("reason", .byteArray adata.response.reason),
                 ("headers", .list (adata.response.headers.map headerToVariant)),
                 ("body", .byteArray adata.response.body)])]
            else [])
        ++ (if adata.route.isEmpty then [] else [("route", .string adata.route)])
        ++ (if adata.channelPrefix.isEmpty then []
            else [("channel-prefix", .string adata.channelPrefix)])
        ++ (if adata.useSession then [("use-session", .bool true)] else [])) := by
  unfold acceptDataToVariant
  have hreq : adata.requests.foldl (fun vrequests r => vrequests ++ [requestToVariant r]) []
      = adata.requests.map requestToVariant := by
    simpa using foldl_append_singleton requestToVariant adata.requests []
  simp only [hreq, headersToVariant_eq_map]
  cases adata.haveInspectData <;> cases adata.haveResponse <;> cases adata.route.isEmpty <;>
    cases adata.channelPrefix.isEmpty <;> cases adata.useSession <;>
    cases adata.inspectData.userData.isValid <;>
    simp [QVariantHash.insert]

theorem acceptDataToVariant_value_requests (adata : AcceptData) :
    (acceptDataToVariant adata).toHash.value "requests"
      = .list (adata.requests.map requestToVariant) := by
  rw [acceptDataToVariant_eq]
  simp [QVariant.toHash, QVariantHash.value]

theorem acceptDataToVariant_value_request_data (adata : AcceptData) :
    (acceptDataToVariant adata).toHash.value "request-data" = .hash
      [("method", .byteArray adata.requestData.method.toLatin1),
       ("uri", .byteArray adata.requestData.uri.toEncoded),
       ("headers", .list (adata.requestData.headers.map headerToVariant)),
       ("body", .byteArray adata.requestData.body)] := by
  rw [acceptDataToVariant_eq]
  simp [QVariant.toHash, QVariantHash.value]

theorem acceptDataToVariant_value_inspect (adata : AcceptData)
    (h : adata.haveInspectData = true) :
    (acceptDataToVariant adata).toHash.value "inspect" = .hash
      ([("no-proxy", .bool (!adata.inspectData.doProxy)),
        ("sharing-key", .byteArray adata.inspectData.sharingKey)]
        ++ (if adata.inspectData.userData.isValid then
              [("user-data", adata.inspectData.userData)]
            else [])) := by
  rw [acceptDataToVariant_eq]
  simp [QVariant.toHash, QVariantHash.value, h]

theorem acceptDataToVariant_value_response (adata : AcceptData)
    (h : adata.haveResponse = true) :
    (acceptDataToVariant adata).toHash.value "response" = .hash
      [("code", .longLong adata.response.code),
       ("reason", .byteArray adata.response.reason),
       ("headers", .list (adata.response.headers.map headerToVariant)),
       ("body", .byteArray adata.response.body)] := by
  rw [acceptDataToVariant_eq]
  cases adata.haveInspectData <;> simp [QVariant.toHash, QVariantHash.value, h]

/-- The keys of the map built for one request, in the order they are written. -/
theorem requestToVariant_keys (r : AcceptData.Request) :
    (requestToVariant r).toHash.keys =
      ["rid"]
        ++ (if r.https then ["https"] else [])
        ++ (if r.peerAddress.isNull then [] else ["peer-address"])
        ++ (if r.autoCrossOrigin then ["auto-cross-origin"] else [])
        ++ (if r.jsonpCallback.isEmpty then []
            else ["jsonp-callback"]
              ++ (if r.jsonpExtendedResponse then ["jsonp-extended-response"] else []))
        ++ ["in-seq", "out-seq", "out-credits"]
        ++ (if r.userData.isValid then ["user-data"] else []) := by
  rw [requestToVariant_eq]
  cases r.https <;> cases r.peerAddress.isNull <;> cases r.autoCrossOrigin <;>
    cases r.jsonpCallback.isEmpty <;> cases r.jsonpExtendedResponse <;>
    cases r.userData.isValid <;>
    simp [QVariantHash.keys, QVariant.toHash]

theorem mem_ite_nil_right {α : Type} (c : Bool) (k : α) (l : List α) :
    k ∈ (if c then l else []) ↔ c = true ∧ k ∈ l := by
  cases c <;> simp

theorem mem_ite_nil_left {α : Type} (c : Bool) (k : α) (l : List α) :
    k ∈ (if c then [] else l) ↔ c = false ∧ k ∈ l := by
  cases c <;> simp

theorem requestToVariant_contains_iff (r : AcceptData.Request) (k : QString) :
    (requestToVariant r).toHash.contains k = true ↔
      (k = "rid" ∨ k = "in-seq" ∨ k = "out-seq" ∨ k = "out-credits" ∨
       (k = "https" ∧ r.https = true) ∨
       (k = "auto-cross-origin" ∧ r.autoCrossOrigin = true) ∨
       (k = "peer-address" ∧ r.peerAddress.isNull = false) ∨
       (k = "jsonp-callback" ∧ r.jsonpCallback.isEmpty = false) ∨
       (k = "jsonp-extended-response" ∧ r.jsonpCallback.isEmpty = false ∧
          r.jsonpExtendedResponse = true) ∨
       (k = "user-data" ∧ r.userData.isValid = true)) := by
  rw [QVariantHash.contains_iff_mem_keys, requestToVariant_keys]
  simp only [List.mem_append, mem_ite_nil_right, mem_ite_nil_left, List.mem_cons,
    List.mem_singleton, List.not_mem_nil, or_false]
  tauto

theorem requestToVariant_keys_nodup (r : AcceptData.Request) :
    (requestToVariant r).toHash.keys.Nodup := by
  rw [requestToVariant_keys]
  cases r.https <;> cases r.peerAddress.isNull <;> cases r.autoCrossOrigin <;>
    cases r.jsonpCallback.isEmpty <;> cases r.jsonpExtendedResponse <;>
    cases r.userData.isValid <;>
    decide

theorem requestToVariant_value_rid (r : AcceptData.Request) :
    (requestToVariant r).toHash.value "rid"
      = .hash [("sender", .string r.rid.1), ("id", .string r.rid.2)] := by
  rw [requestToVariant_eq]
  simp [QVariantHash.value, QVariant.toHash]

theorem requestToVariant_value_in_seq (r : AcceptData.Request) :
    (requestToVariant r).toHash.value "in-seq" = .longLong r.inSeq := by
  rw [requestToVariant_eq]
  cases r.https <;> cases r.peerAddress.isNull <;> cases r.autoCrossOrigin <;>
    cases r.jsonpCallback.isEmpty <;> cases r.jsonpExtendedResponse <;>
    simp [QVariantHash.value, QVariant.toHash]

theorem requestToVariant_value_out_seq (r : AcceptData.Request) :
    (requestToVariant r).toHash.value "out-seq" = .longLong r.outSeq := by
  rw [requestToVariant_eq]
  cases r.https <;> cases r.peerAddress.isNull <;> cases r.autoCrossOrigin <;>
    cases r.jsonpCallback.isEmpty <;> cases r.jsonpExtendedResponse <;>
    simp [QVariantHash.value, QVariant.toHash]

theorem requestToVariant_value_out_credits (r : AcceptData.Request) :
    (requestToVariant r).toHash.value "out-credits" = .longLong r.outCredits := by
  rw [requestToVariant_eq]
  cases r.https <;> cases r.peerAddress.isNull <;> cases r.autoCrossOrigin <;>
    cases r.jsonpCallback.isEmpty <;> cases r.jsonpExtendedResponse <;>
    simp [QVariantHash.value, QVariant.toHash]

theorem requestToVariant_type (r : AcceptData.Request) :
    (requestToVariant r).type = .Hash := by
  rw [requestToVariant_eq]
  rfl

/-- C11: the `requests` list of the serialized map has one entry per request, in order, the
entry of a request r being a map whose keys are exactly `rid`, `in-seq`, `out-seq`,
`out-credits` always, `https` iff r.https, `auto-cross-origin` iff r.autoCrossOrigin,
`peer-address` iff the peer address is not null, `jsonp-callback` iff the callback is
non-empty, `jsonp-extended-response` iff the callback is non-empty and the flag is true, and
`user-data` iff the user data is valid; `rid` is the map of sender and id and the three
counters are the request's values. With an empty callback neither jsonp key is written,
whatever the flag. -/
theorem acceptDataToVariant_requests (adata : AcceptData) :
    (acceptDataToVariant adata).toHash.value "requests"
      = .list (adata.requests.map requestToVariant) ∧
    (adata.requests.map requestToVariant).length = adata.requests.length ∧
    ∀ r : AcceptData.Request,
      (requestToVariant r).type = .Hash ∧
      (∀ k : QString, (requestToVariant r).toHash.contains k = true ↔
        (k = "rid" ∨ k = "in-seq" ∨ k = "out-seq" ∨ k = "out-credits" ∨
         (k = "https" ∧ r.https = true) ∨
         (k = "auto-cross-origin" ∧ r.autoCrossOrigin = true) ∨
         (k = "peer-address" ∧ r.peerAddress.isNull = false) ∨
         (k = "jsonp-callback" ∧ r.jsonpCallback.isEmpty = false) ∨
         (k = "jsonp-extended-response" ∧ r.jsonpCallback.isEmpty = false ∧
            r.jsonpExtendedResponse = true) ∨
         (k = "user-data" ∧ r.userData.isValid = true))) ∧
      (requestToVariant r).toHash.keys.Nodup ∧
      (requestToVariant r).toHash.value "rid"
        = .hash [("sender", .string r.rid.1), ("id", .string r.rid.2)] ∧
      (requestToVariant r).toHash.value "in-seq" = .longLong r.inSeq ∧
      (requestToVariant r).toHash.value "out-seq" = .longLong r.outSeq ∧
      (requestToVariant r).toHash.value "out-credits" = .longLong r.outCredits ∧
      (r.jsonpCallback.isEmpty = true →
        (requestToVariant r).toHash.contains "jsonp-callback" = false ∧
        (requestToVariant r).toHash.contains "jsonp-extended-response" = false) := by
  refine ⟨acceptDataToVariant_value_requests adata, List.length_map _ _, ?_⟩
  intro r
  refine ⟨requestToVariant_type r, requestToVariant_contains_iff r, requestToVariant_keys_nodup r,
    requestToVariant_value_rid r, requestToVariant_value_in_seq r,
    requestToVariant_value_out_seq r, requestToVariant_value_out_credits r, ?_⟩
  intro hj
  constructor
  · cases hc : (requestToVariant r).toHash.contains "jsonp-callback" with
    | false => rfl
    | true =>
      have h := (requestToVariant_contains_iff r "jsonp-callback").1 hc
      simp [hj] at h
  · cases hc : (requestToVariant r).toHash.contains "jsonp-extended-response" with
    | false => rfl
    | true =>
      have h := (requestToVariant_contains_iff r "jsonp-extended-response").1 hc
      simp [hj] at h

/-- C11, witness: a request with the extended-response flag set and an empty callback gets
neither jsonp key. -/
theorem acceptDataToVariant_requests_witness :
    (requestToVariant { rid := ("s1", "i1"), jsonpExtendedResponse := true }).toHash.contains
        "jsonp-callback" = false ∧
    (requestToVariant { rid := ("s1", "i1"), jsonpExtendedResponse := true }).toHash.contains
        "jsonp-extended-response" = false :=
  ((acceptDataToVariant_requests {}).2.2
    { rid := ("s1", "i1"), jsonpExtendedResponse := true }).2.2.2.2.2.2.2 rfl

/-- C12: header order is preserved by the serializer: the `headers` value under
`request-data` is the list of the N 2-element lists `[name_i, value_i]` of the request
headers, in input order, nothing merged or dropped; and so is `response`.`headers` for the
response headers when a response is present. -/
theorem acceptDataToVariant_headers_in_order (adata : AcceptData) :
    (((acceptDataToVariant adata).toHash.value "request-data").toHash.value "headers"
        = .list (adata.requestData.headers.map fun h => .list [.byteArray h.1, .byteArray h.2]) ∧
     (((acceptDataToVariant adata).toHash.value "request-data").toHash.value
        "headers").toList.length = adata.requestData.headers.length) ∧
    (adata.haveResponse = true →
      ((acceptDataToVariant adata).toHash.value "response").toHash.value "headers"
        = .list (adata.response.headers.map fun h => .list [.byteArray h.1, .byteArray h.2]) ∧
      (((acceptDataToVariant adata).toHash.value "response").toHash.value
        "headers").toList.length = adata.response.headers.length) := by
  constructor
  · rw [acceptDataToVariant_value_request_data]
    simp [QVariant.toHash, QVariantHash.value, QVariant.toList, headerToVariant]
  · intro h
    rw [acceptDataToVariant_value_response adata h]
    simp [QVariant.toHash, QVariantHash.value, QVariant.toList, headerToVariant]

/-- C12, witness: three response headers, two of them of the same name. -/
theorem acceptDataToVariant_headers_in_order_witness :
    ((acceptDataToVariant
        { haveResponse := true
          response := { headers := [([98], [49]), ([97], [50]), ([98], [51])] } }).toHash.value
        "response").toHash.value "headers"
      = .list [.list [.byteArray [98], .byteArray [49]], .list [.byteArray [97], .byteArray [50]],
          .list [.byteArray [98], .byteArray [51]]] :=
  ((acceptDataToVariant_headers_in_order
      { haveResponse := true
        response := { headers := [([98], [49]), ([97], [50]), ([98], [51])] } }).2 rfl).1

/-- C13: the end-to-end example of the spec: one request with rid ("s1", "i1"), sequences 0
and 0, credits 100, request data GET /x without header or body, and useSession set,
serializes to the map of `requests` (one entry with exactly rid, in-seq, out-seq and
out-credits), `request-data` (method, uri, empty header list, empty body) and `use-session`
true, without `inspect`, `response`, `route` or `channel-prefix`. -/
theorem acceptDataToVariant_end_to_end :
    acceptDataToVariant
        { requests := [{ rid := ("s1", "i1"), inSeq := 0, outSeq := 0, outCredits := 100 }]
          requestData := { method := "GET", uri := { encoded := [47, 120] }, headers := [],
                           body := [] }
          useSession := true } =
      .hash [
        ("requests", .list [.hash [
          ("rid", .hash [("sender", .string "s1"), ("id", .string "i1")]),
          ("in-seq", .longLong 0), ("out-seq", .longLong 0), ("out-credits", .longLong 100)]]),
        ("request-data", .hash [
          ("method", .byteArray [71, 69, 84]), ("uri", .byteArray [47, 120]),
          ("headers", .list []), ("body", .byteArray [])]),
        ("use-session", .bool true)] ∧
    (acceptDataToVariant
        { requests := [{ rid := ("s1", "i1"), inSeq := 0, outSeq := 0, outCredits := 100 }]
          requestData := { method := "GET", uri := { encoded := [47, 120] }, headers := [],
                           body := [] }
          useSession := true }).toHash.keys = ["requests", "request-data", "use-session"] := by
  constructor <;> rfl

/-- C14: when inspect data is present, the `inspect` value of the serialized map is a map
with `no-proxy` the negation of doProxy (written whether true or false), `sharing-key` the
sharing key (written even when empty), `user-data` present iff the inspect user data is
valid (then being that value), and no other key. -/
theorem acceptDataToVariant_inspect (adata : AcceptData)
    (h : adata.haveInspectData = true) :
    ((acceptDataToVariant adata).toHash.value "inspect").type = .Hash ∧
    ((acceptDataToVariant adata).toHash.value "inspect").toHash.value "no-proxy"
      = .bool (!adata.inspectData.doProxy) ∧
    ((acceptDataToVariant adata).toHash.value "inspect").toHash.value "sharing-key"
      = .byteArray adata.inspectData.sharingKey ∧
    (∀ k : QString,
      ((acceptDataToVariant adata).toHash.value "inspect").toHash.contains k = true ↔
        (k = "no-proxy" ∨ k = "sharing-key" ∨
         (k = "user-data" ∧ adata.inspectData.userData.isValid = true))) ∧
    ((acceptDataToVariant adata).toHash.value "inspect").toHash.keys.Nodup ∧
    (adata.inspectData.userData.isValid = true →
      ((acceptDataToVariant adata).toHash.value "inspect").toHash.value "user-data"
        = adata.inspectData.userData) := by
  rw [acceptDataToVariant_value_inspect adata h]
  refine ⟨rfl, ?_, ?_, ?_, ?_, ?_⟩
  · simp [QVariant.toHash, QVariantHash.value]
  · simp [QVariant.toHash, QVariantHash.value]
  · intro k
    rw [QVariantHash.contains_iff_mem_keys]
    cases adata.inspectData.userData.isValid <;> simp [QVariant.toHash, QVariantHash.keys]
  · cases adata.inspectData.userData.isValid <;> simp [QVariant.toHash, QVariantHash.keys]
  · intro hv
    simp [QVariant.toHash, QVariantHash.value, hv]

/-- C14, witness: inspect data with doProxy false, an empty sharing key and no user data
gives exactly `no-proxy` true and the empty `sharing-key`. -/
theorem acceptDataToVariant_inspect_witness :
    ((acceptDataToVariant { haveInspectData := true }).toHash.value "inspect").toHash.value
        "no-proxy" = .bool true ∧
    ((acceptDataToVariant { haveInspectData := true }).toHash.value "inspect").toHash.value
        "sharing-key" = .byteArray [] ∧
    ((acceptDataToVariant { haveInspectData := true }).toHash.value "inspect").toHash.contains
        "user-data" = false :=
  ⟨(acceptDataToVariant_inspect { haveInspectData := true } rfl).2.1,
   (acceptDataToVariant_inspect { haveInspectData := true } rfl).2.2.1, rfl⟩

/-- C15: the `request-data` value of the serialized map is a map with exactly the keys
`method`, `uri`, `headers`, `body`, all present also when empty, `body` being the request
body; and when a response is present the `response` value is a map with exactly the keys
`code`, `reason`, `headers`, `body`, holding the response code, reason, header list and
body. -/
theorem acceptDataToVariant_request_data_and_response (adata : AcceptData) :
    (((acceptDataToVariant adata).toHash.value "request-data").type = .Hash ∧
     ((acceptDataToVariant adata).toHash.value "request-data").toHash.keys
       = ["method", "uri", "headers", "body"] ∧
     ((acceptDataToVariant adata).toHash.value "request-data").toHash.value "method"
       = .byteArray adata.requestData.method.toLatin1 ∧
     ((acceptDataToVariant adata).toHash.value "request-data").toHash.value "uri"
       = .byteArray adata.requestData.uri.toEncoded ∧
     ((acceptDataToVariant adata).toHash.value "request-data").toHash.value "headers"
       = .list (adata.requestData.headers.map headerToVariant) ∧
     ((acceptDataToVariant adata).toHash.value "request-data").toHash.value "body"
       = .byteArray adata.requestData.body) ∧
    (adata.haveResponse = true →
      ((acceptDataToVariant adata).toHash.value "response").type = .Hash ∧
      ((acceptDataToVariant adata).toHash.value "response").toHash.keys
        = ["code", "reason", "headers", "body"] ∧
      ((acceptDataToVariant adata).toHash.value "response").toHash.value "code"
        = .longLong adata.response.code ∧
      ((acceptDataToVariant adata).toHash.value "response").toHash.value "reason"
        = .byteArray adata.response.reason ∧
      ((acceptDataToVariant adata).toHash.value "response").toHash.value "headers"
        = .list (adata.response.headers.map headerToVariant) ∧
      ((acceptDataToVariant adata).toHash.value "response").toHash.value "body"
        = .byteArray adata.response.body) := by
  constructor
  · rw [acceptDataToVariant_value_request_data]
    simp [QVariant.type, QVariant.toHash, QVariantHash.value, QVariantHash.keys]
  · intro h
    rw [acceptDataToVariant_value_response adata h]
    simp [QVariant.type, QVariant.toHash, QVariantHash.value, QVariantHash.keys]

/-- C15, witness: a response 404 "NF" with body "!" and no header. -/
theorem acceptDataToVariant_request_data_and_response_witness :
    ((acceptDataToVariant
        { haveResponse := true
          response := { code := 404, reason := [78, 70], body := [33] } }).toHash.value
        "response").toHash.keys = ["code", "reason", "headers", "body"] ∧
    ((acceptDataToVariant
        { haveResponse := true
          response := { code := 404, reason := [78, 70], body := [33] } }).toHash.value
        "response").toHash.value "code" = .longLong 404 :=
  ⟨((acceptDataToVariant_request_data_and_response
      { haveResponse := true
        response := { code := 404, reason := [78, 70], body := [33] } }).2 rfl).2.1,
   ((acceptDataToVariant_request_data_and_response
      { haveResponse := true
        response := { code := 404, reason := [78, 70], body := [33] } }).2 rfl).2.2.1⟩

/-! ## The claims on the lifecycle -/

/-- C16: on the success signal with reply value v, `onSuccess` stores the result of
`convertResult` on v; when the validation succeeded the error kind is left as it was (none
on a fresh request) and `result` is the validated data; when it failed the error kind is the
format error. On a request without error, the error kind after `onSuccess` is the format
error if and only if `convertResult` reports ok = false. -/
theorem onSuccess_completion (self : AcceptRequest) (v : QVariant)
    (hv : self.zrpcResult = v) :
    self.onSuccess.result = (convertResult v).1 ∧
    ((convertResult v).2 = true → self.onSuccess.error = self.error) ∧
    ((convertResult v).2 = false → self.onSuccess.error = some .ErrorFormat) ∧
    (self.error = none →
      (self.onSuccess.error = some .ErrorFormat ↔ (convertResult v).2 = false)) := by
  subst hv
  unfold AcceptRequest.onSuccess
  generalize convertResult self.zrpcResult = r
  obtain ⟨d, ok⟩ := r
  cases ok with
  | false => simp [AcceptRequest.setError]
  | true =>
    refine ⟨rfl, fun _ => rfl, fun hf => by simp at hf, ?_⟩
    intro he
    simp [he]

/-- C16, witness: a valid reply is stored without error, an invalid one sets the format
error. -/
theorem onSuccess_completion_witness :
    (AcceptRequest.onSuccess { zrpcResult := .hash [("accepted", .bool true)] }).result
      = { accepted := true } ∧
    (AcceptRequest.onSuccess { zrpcResult := .hash [("accepted", .bool true)] }).error = none ∧
    (AcceptRequest.onSuccess { zrpcResult := .hash [("accepted", .longLong 1)] }).error
      = some .ErrorFormat :=
  ⟨(onSuccess_completion { zrpcResult := .hash [("accepted", .bool true)] } _ rfl).1,
   (onSuccess_completion { zrpcResult := .hash [("accepted", .bool true)] } _ rfl).2.1
     (by decide),
   (onSuccess_completion { zrpcResult := .hash [("accepted", .longLong 1)] } _ rfl).2.2.1
     (by decide)⟩

/-- C17: `start` hands the RPC facility exactly one call, with method name "accept" and the
serialized map of the request context as payload, and leaves the stored result, the reply
and the error kind untouched. -/
theorem start_hands_accept_call (self : AcceptRequest) (adata : AcceptData) :
    (self.start adata).calls = self.calls ++ [("accept", (acceptDataToVariant adata).toHash)] ∧
    (self.start adata).calls.length = self.calls.length + 1 ∧
    acceptDataToVariant adata = .hash (acceptDataToVariant adata).toHash ∧
    (self.start adata).result = self.result ∧
    (self.start adata).zrpcResult = self.zrpcResult ∧
    (self.start adata).error = self.error := by
  refine ⟨rfl, ?_, ?_, rfl, rfl, rfl⟩
  · simp [AcceptRequest.start, AcceptRequest.zrpcStart]
  · rw [acceptDataToVariant_eq]
    rfl

/-! ## The claims relating tags, absence and the round trip -/

/-- C18: the `code` check looks at the tag only: with the other fields valid, a reply whose
`response` map holds a `code` is rejected if and only if the code is the null value, a list
or a map; a Bool, integer, String or ByteArray code is accepted whatever its content, and a
String or ByteArray code that does not parse as a number gives the result code 0. -/
theorem convertResult_code_tag_only (obj vr : QVariantHash)
    (hr : obj.contains "response" = true) (hv : obj.value "response" = .hash vr)
    (hc : vr.contains "code" = true)
    (hacc : obj.contains "accepted" = true → (obj.value "accepted").type = .Bool)
    (hreason : vr.contains "reason" = true → (vr.value "reason").type = .ByteArray)
    (hheaders : vr.contains "headers" = true →
      ∃ l, vr.value "headers" = .list l ∧ ∀ e ∈ l, isHeaderPair e = true)
    (hbody : vr.contains "body" = true → (vr.value "body").type = .ByteArray) :
    ((convertResult (.hash obj)).2 = false ↔
      ((vr.value "code").type = .Invalid ∨ (vr.value "code").type = .List ∨
        (vr.value "code").type = .Hash)) ∧
    (((vr.value "code").type = .Bool ∨ (vr.value "code").type = .LongLong ∨
        (vr.value "code").type = .String ∨ (vr.value "code").type = .ByteArray) →
      (convertResult (.hash obj)).2 = true) ∧
    (∀ s : QString, vr.value "code" = .string s → toLongLong s.codes = none →
      (convertResult (.hash obj)).1.response.code = 0) ∧
    (∀ b : QByteArray, vr.value "code" = .byteArray b → toLongLong b = none →
      (convertResult (.hash obj)).1.response.code = 0) := by
  cases hcan : (vr.value "code").canConvertInt with
  | false =>
    have hfail : convertResult (.hash obj) = ({}, false) := by
      apply convertResult_of_convertCode_none obj vr hr hv
      intro out
      simp [convertCode, hc, hcan]
    rw [hfail]
    cases hcv : vr.value "code" <;>
      simp_all [QVariant.type, QVariant.canConvertInt]
  | true =>
    rw [convertResult_valid_response obj vr hacc hr hv (fun _ => hcan) hreason hheaders hbody]
    simp only [hc, if_true]
    cases hcv : vr.value "code" <;>
      simp_all [QVariant.type, QVariant.canConvertInt, QVariant.toInt, toInt32]

/-- C18, witness: the code "abc" is accepted and read as 0. -/
theorem convertResult_code_tag_only_witness :
    (convertResult (.hash [("response", .hash [("code", .string "abc")])])).2 = true ∧
    (convertResult (.hash [("response", .hash [("code", .string "abc")])])).1.response.code
      = 0 :=
  ⟨(convertResult_code_tag_only [("response", .hash [("code", .string "abc")])]
      [("code", .string "abc")] (by decide) rfl (by decide)
      (fun h => absurd h (by decide)) (fun h => absurd h (by decide))
      (fun h => absurd h (by decide)) (fun h => absurd h (by decide))).2.1
      (Or.inr (Or.inr (Or.inl rfl))),
   (convertResult_code_tag_only [("response", .hash [("code", .string "abc")])]
      [("code", .string "abc")] (by decide) rfl (by decide)
      (fun h => absurd h (by decide)) (fun h => absurd h (by decide))
      (fun h => absurd h (by decide)) (fun h => absurd h (by decide))).2.2.1
      "abc" rfl (by decide)⟩

/-- The `response` block on an empty response map changes nothing. -/
theorem convertResponse_empty_map (obj : QVariantHash) (out : ResponseData)
    (hv : obj.value "response" = .hash []) :
    convertResponse obj out = some out := by
  simp [convertResponse, hv, QVariant.type, QVariant.toHash, convertCode, convertReason,
    convertHeaders, convertBody, QVariantHash.contains]

/-- C19: the validated result cannot tell an absent response from an empty one: for a reply
map without a `response` key, the validation of the map and of the map with `response` set
to the empty map give the same flag and the same `ResponseData`. -/
theorem convertResult_absent_or_empty_response (obj : QVariantHash)
    (h : obj.contains "response" = false) :
    convertResult (.hash (obj.insert "response" (.hash []))) = convertResult (.hash obj) := by
  apply convertResult_congr
  · intro out
    exact convertAccepted_congr _ _ _
      (QVariantHash.contains_insert_ne _ _ _ _ (by decide))
      (QVariantHash.value_insert_ne _ _ _ _ (by decide))
  · intro out
    rw [convertResponse_empty_map _ out (QVariantHash.value_insert_self _ _ _)]
    simp [convertResponse, h]

/-- C19, witness: `{accepted: true}` and `{accepted: true, response: {}}` validate alike. -/
theorem convertResult_absent_or_empty_response_witness :
    convertResult (.hash (QVariantHash.insert [("accepted", .bool true)] "response" (.hash [])))
      = convertResult (.hash [("accepted", .bool true)]) :=
  convertResult_absent_or_empty_response [("accepted", .bool true)] (by decide)

end Pushpin
